import Mathlib

/-!
Reconciliation steps of the FoundationDB Kubernetes operator.

A shallow embedding of `controllers/update_pod_config.go`
(`updatePodConfig.reconcile`) and of the Removal Selector behind
`chooseRemovals.reconcile`, followed by theorems about both.

The Go code runs against collaborators (pod lifecycle manager, sidecar
client, API server, clock).  Their answers are taken as parameters: pure
helpers are plain functions, effectful calls thread an explicit world
state `σ`, and every effectful call is appended to a trace so that
statements such as "no push is attempted" can be made.
-/

namespace fdb

/-! ## Data model -/

/-- Go `error` values; only their identity matters to the step. -/
structure GoError where
  text : String
deriving DecidableEq, Repr

/-- The type `fdbv1beta2.ProcessGroupID` (a Go string). -/
abbrev ProcessGroupID := String

/-- The type `fdbv1beta2.ProcessClass`. -/
inductive ProcessClass where
  | storage
  | log
  | cluster_controller
  | other (name : String)
deriving DecidableEq, Repr

/-- The type `fdbv1beta2.ProcessGroupConditionType`; the step names two of
its values, the remaining ones are kept under `other`. -/
inductive ProcessGroupConditionType where
  | SidecarUnreachable
  | IncorrectConfigMap
  | other (name : String)
deriving DecidableEq, Repr

/-- Modelled from the spec: the declaration is not among the sources.  One
of the "timestamped conditions (condition kind → first-observed time)" of a
process group: the kind and the Unix time at which it was first observed. -/
structure ProcessGroupCondition where
  ProcessGroupConditionType : ProcessGroupConditionType
  Timestamp : Int
deriving DecidableEq, Repr

/-- Modelled from the spec: the declaration of `fdbv1beta2.ProcessGroupStatus`
is not among the sources.  A process group has an "identity (globally unique
string ...), class ..., removal flag ..., a set of timestamped conditions";
the removal flag is kept as the optional time of the marking. -/
structure ProcessGroupStatus where
  ProcessGroupID : ProcessGroupID
  ProcessClass : ProcessClass
  RemovalTimestamp : Option Int
  ProcessGroupConditions : List ProcessGroupCondition
deriving DecidableEq, Repr

/-- The part of `cluster.Status` that the step can change.  The other
fields of the status are neither read nor written by the step. -/
structure FoundationDBClusterStatus where
  ProcessGroups : List ProcessGroupStatus
deriving DecidableEq, Repr

/-- The map `pod.ObjectMeta.Annotations`, split by key: the entries under
`fdbv1beta2.LastConfigMapKey` and `fdbv1beta2.OutdatedConfigMapKey` (two
distinct keys), and all remaining entries.  The map is taken to be
allocated, as it is for every pod the operator creates. -/
structure Annotations where
  LastConfigMapKey : Option String
  OutdatedConfigMapKey : Option String
  others : List (String × String)
deriving DecidableEq, Repr

/-- A `corev1.Pod`: its annotations, which the step reads and writes, and
`Name`, which stands for all the fields that only the collaborators read. -/
structure Pod where
  Name : String
  Annotations : Annotations
deriving DecidableEq, Repr

/-- The struct `requeue` of the controllers package, with the four fields
the step sets and the Go zero values as defaults. -/
structure requeue where
  curError : Option GoError := none
  message : String := ""
  delay : Int := 0
  delayedRequeue : Bool := false
deriving DecidableEq, Repr

/-- Calls that leave the process, in the order the step makes them. -/
inductive Event where
  | updatePodDynamicConf (id : ProcessGroupID) (pod : Pod) (synced : Bool) (err : Option GoError)
  | UpdateMetadata (id : ProcessGroupID) (pod : Pod) (err : Option GoError)
  | updateOrApply (status : FoundationDBClusterStatus) (err : Option GoError)
deriving DecidableEq, Repr

/-- The collaborators of `updatePodConfig.reconcile`, for one cluster.
Helpers that only read the cluster object or the pod are functions;
calls with an effect take and return the world state. -/
structure Env (σ : Type) (ConfigMap : Type) (ImageType : Type) where
  /-- `internal.GetConfigMap(cluster)`. -/
  GetConfigMap : Except GoError ConfigMap
  /-- `r.PodLifecycleManager.GetPods(...)`. -/
  GetPods : σ → Except GoError (List Pod) × σ
  /-- `internal.CreatePodMap(cluster, pods)`; an absent key and a nil pod
  are both `none`. -/
  CreatePodMap : List Pod → ProcessGroupID → Option Pod
  /-- `cluster.SkipProcessGroup(processGroup)`. -/
  SkipProcessGroup : ProcessGroupStatus → Bool
  /-- `internal.GetStorageServersPerPodForPod(pod)`. -/
  GetStorageServersPerPodForPod : Pod → Except GoError Int
  /-- `podmanager.GetProcessClass(cluster, pod)`. -/
  GetProcessClass : Pod → Except GoError ProcessClass
  /-- `internal.GetImageType(pod)`. -/
  GetImageType : Pod → ImageType
  /-- `internal.GetDynamicConfHash(configMap, class, imageType, n)`. -/
  GetDynamicConfHash : ConfigMap → ProcessClass → ImageType → Int → Except GoError String
  /-- `cluster.IsBeingUpgradedWithVersionIncompatibleVersion()`. -/
  IsBeingUpgradedWithVersionIncompatibleVersion : Bool
  /-- `r.updatePodDynamicConf(logger, cluster, pod)`. -/
  updatePodDynamicConf : Pod → σ → (Bool × Option GoError) × σ
  /-- `internal.IsNetworkError(err)`. -/
  IsNetworkError : Option GoError → Bool
  /-- `r.PodLifecycleManager.UpdateMetadata(ctx, r, cluster, pod)`. -/
  UpdateMetadata : Pod → σ → Option GoError × σ
  /-- `r.updateOrApply(ctx, cluster)`. -/
  updateOrApply : FoundationDBClusterStatus → σ → Option GoError × σ
  /-- `time.Now().Unix()`. -/
  Now : σ → Int × σ
  /-- The package constant `podSchedulingDelayDuration`. -/
  podSchedulingDelayDuration : Int

/-- Modelled from the spec: `processGroup.IsMarkedForRemoval()` of the API
package is not among the sources; it reads the removal flag. -/
def ProcessGroupStatus.IsMarkedForRemoval (processGroup : ProcessGroupStatus) : Bool :=
  processGroup.RemovalTimestamp.isSome

/-- Modelled from the spec: `GetConditionTime` of the API package is not
among the sources.  A process group carries "a set of timestamped
conditions (condition kind → first-observed time)"; the call returns the
time stored for the kind, or nil. -/
def ProcessGroupStatus.GetConditionTime (processGroup : ProcessGroupStatus)
    (conditionType : ProcessGroupConditionType) : Option Int :=
  (processGroup.ProcessGroupConditions.find?
    (fun c => c.ProcessGroupConditionType = conditionType)).map (fun c => c.Timestamp)

/-- Modelled from the spec: `UpdateCondition` of the API package is not
among the sources.  Setting is the "observe-once" operation: a kind that is
already present is left as it is ("first-observed time wins"), a new kind is
added with the current time.  Clearing removes the kind.  The process-group
list and ID passed by the caller identify the receiver and are not needed
here. -/
def ProcessGroupStatus.UpdateCondition {σ : Type} (now : σ → Int × σ)
    (processGroup : ProcessGroupStatus) (conditionType : ProcessGroupConditionType)
    (set : Bool) (w : σ) : ProcessGroupStatus × σ :=
  if set then
    if (processGroup.GetConditionTime conditionType).isSome then (processGroup, w)
    else
      ({ processGroup with
          ProcessGroupConditions := processGroup.ProcessGroupConditions ++
            [{ ProcessGroupConditionType := conditionType, Timestamp := (now w).1 }] },
        (now w).2)
  else
    ({ processGroup with
        ProcessGroupConditions := processGroup.ProcessGroupConditions.filter
          (fun c => c.ProcessGroupConditionType ≠ conditionType) }, w)

/-! ## `updatePodConfig.reconcile` -/

/-- The local variables of `reconcile` that live across loop iterations,
with the pods behind `podMap` (mutated in place by the loop), the world
state and the trace. -/
structure LoopVars (σ : Type) where
  allSynced : Bool
  delayedRequeue : Bool
  errs : List GoError
  podMap : ProcessGroupID → Option Pod
  world : σ
  trace : List Event

/-- Writes `pod` back under `id`: pods are pointers in the Go map. -/
def setPod (podMap : ProcessGroupID → Option Pod) (id : ProcessGroupID) (pod : Pod) :
    ProcessGroupID → Option Pod :=
  fun k => if k = id then some pod else podMap k

/-- Lines 109-133: the push did not sync. -/
def notSynced {σ C I : Type} (env : Env σ C I) (v : LoopVars σ)
    (processGroup : ProcessGroupStatus) (pod : Pod) (err : Option GoError) (w1 : σ)
    (trace1 : List Event) : ProcessGroupStatus × LoopVars σ :=
  let cond : ProcessGroupStatus × Bool × σ :=
    if env.IsNetworkError err ∧
        processGroup.GetConditionTime ProcessGroupConditionType.SidecarUnreachable = none then
      let r := processGroup.UpdateCondition env.Now ProcessGroupConditionType.SidecarUnreachable true w1
      (r.1, v.delayedRequeue, r.2)
    else if processGroup.GetConditionTime ProcessGroupConditionType.IncorrectConfigMap = none then
      let r := processGroup.UpdateCondition env.Now ProcessGroupConditionType.IncorrectConfigMap true w1
      (r.1, false, r.2)
    else (processGroup, v.delayedRequeue, w1)
  let w2 := cond.2.2
  let pod1 : Pod :=
    { pod with Annotations :=
        { pod.Annotations with OutdatedConfigMapKey := some (toString (env.Now w2).1) } }
  let w3 := (env.Now w2).2
  let upd := env.UpdateMetadata pod1 w3
  let trace2 := trace1 ++ [Event.UpdateMetadata processGroup.ProcessGroupID pod1 upd.1]
  (cond.1,
    { allSynced := false
      delayedRequeue := cond.2.1
      errs := match upd.1 with
        | some e => v.errs ++ [e]
        | none => v.errs
      podMap := setPod v.podMap processGroup.ProcessGroupID pod1
      world := upd.2
      trace := trace2 })

/-- Lines 135-147: the push synced. -/
def synced {σ C I : Type} (env : Env σ C I) (v : LoopVars σ)
    (processGroup : ProcessGroupStatus) (pod : Pod) (configMapHash : String) (w1 : σ)
    (trace1 : List Event) : ProcessGroupStatus × LoopVars σ :=
  let v1 : LoopVars σ :=
    if pod.Annotations.LastConfigMapKey.getD "" ≠ configMapHash then
      let pod1 : Pod :=
        { pod with Annotations :=
            { pod.Annotations with
                LastConfigMapKey := some configMapHash
                OutdatedConfigMapKey := none } }
      let upd := env.UpdateMetadata pod1 w1
      { allSynced := match upd.1 with
          | some _ => false
          | none => v.allSynced
        delayedRequeue := v.delayedRequeue
        errs := match upd.1 with
          | some e => v.errs ++ [e]
          | none => v.errs
        podMap := setPod v.podMap processGroup.ProcessGroupID pod1
        world := upd.2
        trace := trace1 ++ [Event.UpdateMetadata processGroup.ProcessGroupID pod1 upd.1] }
    else { v with world := w1, trace := trace1 }
  let r := processGroup.UpdateCondition env.Now ProcessGroupConditionType.SidecarUnreachable false v1.world
  (r.1, { v1 with world := r.2 })

/-- Lines 104-147: the pod and its hash are known. -/
def pushConfig {σ C I : Type} (env : Env σ C I) (v : LoopVars σ)
    (processGroup : ProcessGroupStatus) (pod : Pod) (configMapHash : String) :
    ProcessGroupStatus × LoopVars σ :=
  if pod.Annotations.LastConfigMapKey.getD "" = configMapHash ∧
      env.IsBeingUpgradedWithVersionIncompatibleVersion = false then
    (processGroup, v)
  else
    let push := env.updatePodDynamicConf pod v.world
    let trace1 := v.trace ++
      [Event.updatePodDynamicConf processGroup.ProcessGroupID pod push.1.1 push.1.2]
    if push.1.1 = false then
      notSynced env v processGroup pod push.1.2 push.2 trace1
    else
      synced env v processGroup pod configMapHash push.2 trace1

/-- Lines 79-98: the three resolution calls for a pod, the first failure
wins. -/
def resolveHash {σ C I : Type} (env : Env σ C I) (configMap : C) (pod : Pod) :
    Except GoError String :=
  match env.GetStorageServersPerPodForPod pod with
  | .error err => .error err
  | .ok serverPerPod =>
    match env.GetProcessClass pod with
    | .error err => .error err
    | .ok processClass =>
      env.GetDynamicConfHash configMap processClass (env.GetImageType pod) serverPerPod

/-- Lines 60-148: the body of the loop for one process group.  Returns the
process group as the iteration leaves it and the loop variables. -/
def loopBody {σ C I : Type} (env : Env σ C I) (configMap : C) (v : LoopVars σ)
    (processGroup : ProcessGroupStatus) : ProcessGroupStatus × LoopVars σ :=
  if processGroup.IsMarkedForRemoval then (processGroup, v)
  else if env.SkipProcessGroup processGroup then (processGroup, v)
  else
    match v.podMap processGroup.ProcessGroupID with
    | none => (processGroup, v)
    | some pod =>
      match resolveHash env configMap pod with
      | .error err => (processGroup, { v with errs := v.errs ++ [err] })
      | .ok configMapHash => pushConfig env v processGroup pod configMapHash

/-- Lines 60-148: the loop over `cluster.Status.ProcessGroups`. -/
def loop {σ C I : Type} (env : Env σ C I) (configMap : C) :
    List ProcessGroupStatus → LoopVars σ → List ProcessGroupStatus × LoopVars σ
  | [], v => ([], v)
  | processGroup :: rest, v =>
    let r := loopBody env configMap v processGroup
    let r2 := loop env configMap rest r.2
    (r.1 :: r2.1, r2.2)

/-- What a pass leaves behind: the returned signal, the in-memory cluster
status, the in-memory pods, the world and the trace. -/
structure Outcome (σ : Type) where
  result : Option requeue
  Status : FoundationDBClusterStatus
  podMap : ProcessGroupID → Option Pod
  world : σ
  trace : List Event

/-- Lines 56-58: the loop variables before the first iteration. -/
def initVars {σ : Type} (podMap : ProcessGroupID → Option Pod) (w : σ) : LoopVars σ :=
  { allSynced := true, delayedRequeue := true, errs := [], podMap := podMap, world := w,
    trace := [] }

/-- Lines 157-169: the signal once the status is written or needs no write. -/
def aggregate {σ C I : Type} (env : Env σ C I) (v : LoopVars σ) : Option requeue :=
  if v.errs.length > 0 then
    some { message := "errors occurred during update pod config reconcile" }
  else if v.allSynced = false then
    some { message := "Waiting for Pod to receive ConfigMap update"
           delay := env.podSchedulingDelayDuration
           delayedRequeue := v.delayedRequeue }
  else none

/-- Lines 150-169: status write when the status changed, then the signal. -/
def finish {σ C I : Type} (env : Env σ C I) (originalStatus : FoundationDBClusterStatus)
    (processGroups : List ProcessGroupStatus) (v : LoopVars σ) : Outcome σ :=
  let status : FoundationDBClusterStatus := { ProcessGroups := processGroups }
  if status ≠ originalStatus then
    let wr := env.updateOrApply status v.world
    let trace1 := v.trace ++ [Event.updateOrApply status wr.1]
    match wr.1 with
    | some err =>
      { result := some { curError := some err }, Status := status, podMap := v.podMap,
        world := wr.2, trace := trace1 }
    | none =>
      { result := aggregate env v, Status := status, podMap := v.podMap,
        world := wr.2, trace := trace1 }
  else
    { result := aggregate env v, Status := status, podMap := v.podMap,
      world := v.world, trace := v.trace }

/-- The method `updatePodConfig.reconcile` (lines 41-170). -/
def updatePodConfig.reconcile {σ C I : Type} (env : Env σ C I)
    (Status : FoundationDBClusterStatus) (w : σ) : Outcome σ :=
  match env.GetConfigMap with
  | .error err =>
    { result := some { curError := some err }, Status := Status, podMap := fun _ => none,
      world := w, trace := [] }
  | .ok configMap =>
    match env.GetPods w with
    | (.error err, w1) =>
      { result := some { curError := some err }, Status := Status, podMap := fun _ => none,
        world := w1, trace := [] }
    | (.ok pods, w1) =>
      let r := loop env configMap Status.ProcessGroups (initVars (env.CreatePodMap pods) w1)
      finish env Status r.1 r.2

/-! ## The Removal Selector behind `chooseRemovals.reconcile`

`controllers/choose_removals.go` is not among the sources; only its test
is.  The definitions of this section follow section 4.2 of the
specification. -/

namespace chooseRemovals

/-- Modelled from the spec: the entry type of the Process Group Directory is
not among the sources.  A process group has an identity that "encodes class +
ordinal", a removal flag, and "an optional fault-domain/zone label obtained
from the live locality client". -/
structure ProcessGroup where
  processClass : ProcessClass
  ordinal : Nat
  markedForRemoval : Bool
  zone : Option String
deriving DecidableEq, Repr

/-- Modelled from the spec: the identity of a process group, class and
ordinal (`storage-4` is class storage, ordinal 4). -/
def ProcessGroup.identity (g : ProcessGroup) : ProcessClass × Nat :=
  (g.processClass, g.ordinal)

/-- Modelled from the spec: the Desired Topology, a "mapping from process
class to desired count"; "desired count for a class not present in Desired
Topology is treated as zero". -/
def desiredCount (desired : ProcessClass → Option Nat) (c : ProcessClass) : Nat :=
  (desired c).getD 0

/-- Modelled from the spec: step 3, "the selection pool from the remaining
(unflagged) groups of that class". -/
def pool (c : ProcessClass) (dir : List ProcessGroup) : List ProcessGroup :=
  dir.filter (fun g => g.processClass = c ∧ g.markedForRemoval = false)

/-- Modelled from the spec: step 1, `live`, the number of groups of the class
"not already flagged for removal". -/
def live (c : ProcessClass) (dir : List ProcessGroup) : Nat :=
  (pool c dir).length

/-- Modelled from the spec: step 3, zone occupancy, "group the pool by
fault-domain/zone label": the number of pool members that carry the zone
label of `g`.  A group whose zone is unknown is in no such group and counts
alone. -/
def zoneOccupancy (members : List ProcessGroup) (g : ProcessGroup) : Nat :=
  match g.zone with
  | none => 1
  | some z => (members.filter (fun h => h.zone = some z)).length

/-- Modelled from the spec: steps 3 and 4, the order of preference.  `a` goes
before `b` when its zone is more occupied ("the most-occupied zone"), and,
"within groups of equal zone-duplication rank", when its ordinal is higher. -/
def preferred (members : List ProcessGroup) (a b : ProcessGroup) : Bool :=
  decide (zoneOccupancy members b < zoneOccupancy members a ∨
    (zoneOccupancy members b = zoneOccupancy members a ∧ b.ordinal < a.ordinal))

/-- Modelled from the spec: steps 3 and 4, the most preferred of the
candidates, none when there is no candidate. -/
def pick (members : List ProcessGroup) : List ProcessGroup → Option ProcessGroup
  | [] => none
  | g :: rest =>
    match pick members rest with
    | none => some g
    | some b => if preferred members b g then some b else some g

/-- Modelled from the spec: step 6, "newly selected groups have their removal
flag set in the in-memory snapshot"; the group is found by its identity. -/
def markForRemoval (g : ProcessGroup) (dir : List ProcessGroup) : List ProcessGroup :=
  dir.map (fun h => if h.identity = g.identity then { h with markedForRemoval := true } else h)

/-- Modelled from the spec: step 5, "repeat steps 3-4 until the class's
removal-target count is met or the pool is exhausted"; the pool and the zone
occupancy are built anew from the groups still unflagged. -/
def removeFromClass (c : ProcessClass) : Nat → List ProcessGroup → List ProcessGroup
  | 0, dir => dir
  | n + 1, dir =>
    match pick (pool c dir) (pool c dir) with
    | none => dir
    | some g => removeFromClass c n (markForRemoval g dir)

/-- Modelled from the spec: step 1, "removal targets needed for that class =
`max(0, live - desired[class])`" (truncated subtraction). -/
def removalTarget (desired : ProcessClass → Option Nat) (dir : List ProcessGroup)
    (c : ProcessClass) : Nat :=
  live c dir - desiredCount desired c

/-- Modelled from the spec: step 1, "partition process groups by class": the
classes that occur in the directory, each once. -/
def classes (dir : List ProcessGroup) : List ProcessClass :=
  (dir.map (fun g => g.processClass)).dedup

/-- Modelled from the spec: the Removal Selector of section 4.2, all classes
in turn, each with the target computed from the directory as passed in. -/
def selectRemovals (desired : ProcessClass → Option Nat) (dir : List ProcessGroup) :
    List ProcessGroup :=
  (classes dir).foldl (fun d c => removeFromClass c (removalTarget desired dir c) d) dir

/-- Modelled from the spec: `chooseRemovals.reconcile`, which "returns ... nil
regardless of whether anything was marked".  The result is the signal and
the directory with the new removal flags. -/
def reconcile (desired : ProcessClass → Option Nat) (dir : List ProcessGroup) :
    Option requeue × List ProcessGroup :=
  (none, selectRemovals desired dir)

/-- The identities flagged for removal, in directory order: what the test
collects in `removals`. -/
def removals (dir : List ProcessGroup) : List (ProcessClass × Nat) :=
  (dir.filter (fun g => g.markedForRemoval)).map ProcessGroup.identity

/-- The number of groups of the class that are flagged for removal. -/
def marked (c : ProcessClass) (dir : List ProcessGroup) : Nat :=
  (dir.filter (fun g => g.processClass = c ∧ g.markedForRemoval = true)).length

/-- What flagging changes: nothing but the flag, and the flag only upwards. -/
def Marks (a b : ProcessGroup) : Prop :=
  b.processClass = a.processClass ∧ b.ordinal = a.ordinal ∧ b.zone = a.zone ∧
    (a.markedForRemoval = true → b.markedForRemoval = true)

end chooseRemovals

/-! ## Reading the trace -/

/-- A push that did not sync. -/
def Event.isUnsyncedPush : Event → Bool
  | .updatePodDynamicConf _ _ false _ => true
  | _ => false

/-- A push for the process group `id`. -/
def Event.isPushFor (id : ProcessGroupID) : Event → Bool
  | .updatePodDynamicConf id1 _ _ _ => id1 = id
  | _ => false

/-- A metadata update for the pod of process group `id`. -/
def Event.isMetadataFor (id : ProcessGroupID) : Event → Bool
  | .UpdateMetadata id1 _ _ => id1 = id
  | _ => false

/-- A status write. -/
def Event.isStatusWrite : Event → Bool
  | .updateOrApply _ _ => true
  | _ => false

/-- A status write that failed. -/
def Event.isFailedStatusWrite : Event → Bool
  | .updateOrApply _ (some _) => true
  | _ => false

/-- The loop variables once the process groups `pre`, the ones ahead in the
list, are processed: what the iteration for the next group starts from. -/
def reach {σ C I : Type} (env : Env σ C I) (configMap : C) (pods : List Pod) (w1 : σ)
    (pre : List ProcessGroupStatus) : LoopVars σ :=
  (loop env configMap pre (initVars (env.CreatePodMap pods) w1)).2

/-- The iteration for `g`, started from `v`, gets to the push (line 108)
with the pod `pod` and the hash `hash`: the group is neither marked for
removal nor skipped, its pod is found, the hash is computed, and the
comparison of line 104 does not end the iteration. -/
def Pushed {σ C I : Type} (env : Env σ C I) (configMap : C) (v : LoopVars σ)
    (g : ProcessGroupStatus) (pod : Pod) (hash : String) : Prop :=
  g.IsMarkedForRemoval = false ∧ env.SkipProcessGroup g = false ∧
  v.podMap g.ProcessGroupID = some pod ∧ resolveHash env configMap pod = .ok hash ∧
  ¬ (pod.Annotations.LastConfigMapKey.getD "" = hash ∧
      env.IsBeingUpgradedWithVersionIncompatibleVersion = false)

/-! ## Predicates and values used in the statements -/

/-- The link between `allSynced`, `errs` and the pushes in the trace. -/
def SyncInv {σ : Type} (v : LoopVars σ) : Prop :=
  (v.allSynced = false → (∃ e ∈ v.trace, e.isUnsyncedPush = true) ∨ v.errs ≠ []) ∧
  ((∃ e ∈ v.trace, e.isUnsyncedPush = true) → v.allSynced = false)

/-- The process group once `SidecarUnreachable` is cleared. -/
def clearSidecarUnreachable (g : ProcessGroupStatus) : ProcessGroupStatus :=
  { g with
    ProcessGroupConditions := g.ProcessGroupConditions.filter
      (fun c => c.ProcessGroupConditionType ≠ ProcessGroupConditionType.SidecarUnreachable) }

/-- The pod as a successful push with a changed hash leaves it. -/
def podSynced (pod : Pod) (hash : String) : Pod :=
  { pod with Annotations :=
      { pod.Annotations with LastConfigMapKey := some hash, OutdatedConfigMapKey := none } }

/-- The pod of `id` is the given one and the trace holds no call for `id`. -/
def Untouched {σ : Type} (id : ProcessGroupID) (pod : Pod) (v : LoopVars σ) : Prop :=
  v.podMap id = some pod ∧
  ∀ e ∈ v.trace, e.isPushFor id = false ∧ e.isMetadataFor id = false

/-- The process group with one more condition, observed at time `t`. -/
def withCondition (g : ProcessGroupStatus) (c : ProcessGroupConditionType) (t : Int) :
    ProcessGroupStatus :=
  { g with
    ProcessGroupConditions := g.ProcessGroupConditions ++
      [{ ProcessGroupConditionType := c, Timestamp := t }] }

/-- Two sets of loop variables that differ at most in `errs`. -/
def AgreeButErrs {σ : Type} (a b : LoopVars σ) : Prop :=
  a.allSynced = b.allSynced ∧ a.delayedRequeue = b.delayedRequeue ∧ a.podMap = b.podMap ∧
    a.world = b.world ∧ a.trace = b.trace

/-! ## Fixtures: small concrete clusters and collaborators -/

namespace Fixture

/-- A pod named `n` whose last-applied hash is `last`. -/
def pod (n : String) (last : Option String) (outdated : Option String) : Pod :=
  { Name := n
    Annotations := { LastConfigMapKey := last, OutdatedConfigMapKey := outdated, others := [] } }

/-- A process group `id` of class storage with the given conditions. -/
def group (id : String) (conds : List ProcessGroupCondition) : ProcessGroupStatus :=
  { ProcessGroupID := id, ProcessClass := ProcessClass.storage, RemovalTimestamp := none,
    ProcessGroupConditions := conds }

/-- The error a sidecar that cannot be reached gives. -/
def netErr : GoError := { text := "dial tcp: i/o timeout" }

/-- The error of a pod whose metadata cannot be read. -/
def badPod : GoError := { text := "no storage servers per pod" }

/-- Collaborators over a world that is a clock: every pod named in `pods`
is listed under its name, the desired hash is `h1`, the push to a pod gives
`push`, metadata and status writes succeed, and a pod named `broken` cannot
be resolved. -/
def env (pods : List Pod) (push : Pod → Bool × Option GoError) (upgrade : Bool) :
    Env Nat Unit Unit :=
  { GetConfigMap := .ok ()
    GetPods := fun w => (.ok pods, w)
    CreatePodMap := fun ps id => ps.find? (fun p => p.Name = id)
    SkipProcessGroup := fun _ => false
    GetStorageServersPerPodForPod := fun p =>
      if p.Name = "broken" then .error badPod else .ok 1
    GetProcessClass := fun _ => .ok ProcessClass.storage
    GetImageType := fun _ => ()
    GetDynamicConfHash := fun _ _ _ _ => .ok "h1"
    IsBeingUpgradedWithVersionIncompatibleVersion := upgrade
    updatePodDynamicConf := fun p w => (push p, w)
    IsNetworkError := fun e => e = some netErr
    UpdateMetadata := fun _ w => (none, w)
    updateOrApply := fun _ w => (none, w)
    Now := fun w => (w, w + 1)
    podSchedulingDelayDuration := 15 }

/-- The error of a sidecar that answers but has not applied the files. -/
def notReady : GoError := { text := "config not ready" }

/-- Two pods: `storage-1` carries the desired hash, `storage-2` a stale one. -/
def twoPods : List Pod := [pod "storage-1" (some "h1") none, pod "storage-2" (some "h0") none]

/-- A process group of the directory, in a zone of its own. -/
def entry (c : ProcessClass) (n : Nat) (z : String) : chooseRemovals.ProcessGroup :=
  { processClass := c, ordinal := n, markedForRemoval := false, zone := some z }

/-- The directory of the test's default cluster, as far as the test looks at
it: one cluster controller, three logs and four storage groups, no two in
one zone. -/
def directory : List chooseRemovals.ProcessGroup :=
  [entry ProcessClass.cluster_controller 1 "c1",
   entry ProcessClass.log 1 "l1", entry ProcessClass.log 2 "l2", entry ProcessClass.log 3 "l3",
   entry ProcessClass.storage 1 "s1", entry ProcessClass.storage 2 "s2",
   entry ProcessClass.storage 3 "s3", entry ProcessClass.storage 4 "s4"]

/-- The desired counts of the default cluster with the storage count given. -/
def counts (storage clusterController : Nat) : ProcessClass → Option Nat
  | ProcessClass.storage => some storage
  | ProcessClass.log => some 3
  | ProcessClass.cluster_controller => some clusterController
  | ProcessClass.other _ => none

/-- The default directory with `storage-2` already flagged. -/
def directoryMarked : List chooseRemovals.ProcessGroup :=
  [entry ProcessClass.cluster_controller 1 "c1",
   entry ProcessClass.log 1 "l1", entry ProcessClass.log 2 "l2", entry ProcessClass.log 3 "l3",
   entry ProcessClass.storage 1 "s1",
   { entry ProcessClass.storage 2 "s2" with markedForRemoval := true },
   entry ProcessClass.storage 3 "s3", entry ProcessClass.storage 4 "s4"]

/-- The default directory with `storage-1` and `storage-2` in zone `r1`. -/
def directoryRack : List chooseRemovals.ProcessGroup :=
  [entry ProcessClass.cluster_controller 1 "c1",
   entry ProcessClass.log 1 "l1", entry ProcessClass.log 2 "l2", entry ProcessClass.log 3 "l3",
   entry ProcessClass.storage 1 "r1", entry ProcessClass.storage 2 "r1",
   entry ProcessClass.storage 3 "s3", entry ProcessClass.storage 4 "s4"]

end Fixture

/-! ## Inputs of the counterexamples -/

/-- The input on which C5 fails: `storage-2` already carries
`SidecarUnreachable` (observed at 100) and no `IncorrectConfigMap`, its pod
carries a stale hash, and the push fails with a network error again. -/
def unreachableAgain : Outcome Nat :=
  updatePodConfig.reconcile
    (Fixture.env [Fixture.pod "storage-2" (some "h0") (some "101")]
      (fun _ => (false, some Fixture.netErr)) false)
    { ProcessGroups := [Fixture.group "storage-2"
        [{ ProcessGroupConditionType := ProcessGroupConditionType.SidecarUnreachable,
           Timestamp := 100 }]] }
    200

/-- The input on which C6 fails: during a version-incompatible upgrade the
pod of `storage-1` carries the desired hash together with an outdated marker,
and the push succeeds. -/
def syncedDuringUpgrade : Outcome Nat :=
  updatePodConfig.reconcile
    (Fixture.env [Fixture.pod "storage-1" (some "h1") (some "90")] (fun _ => (true, none)) true)
    { ProcessGroups := [Fixture.group "storage-1" []] }
    200

/-! ## Lemmas on the loop -/

section Lemmas

variable {σ C I : Type}

theorem loop_preserves (env : Env σ C I) (configMap : C) (P : LoopVars σ → Prop)
    (hstep : ∀ v processGroup, P v → P (loopBody env configMap v processGroup).2) :
    ∀ (processGroups : List ProcessGroupStatus) (v : LoopVars σ),
      P v → P (loop env configMap processGroups v).2 := by
  intro processGroups
  induction processGroups with
  | nil => intro v hv; simpa [loop] using hv
  | cons g rest ih =>
    intro v hv
    simp only [loop]
    exact ih _ (hstep v g hv)

theorem syncInv_init (podMap : ProcessGroupID → Option Pod) (w : σ) :
    SyncInv (initVars podMap w) := by
  constructor
  · intro h; simp [initVars] at h
  · rintro ⟨e, he, -⟩; simp [initVars] at he

theorem synced_same (env : Env σ C I) (v : LoopVars σ) (g : ProcessGroupStatus)
    (pod : Pod) (hash : String) (w1 : σ) (tr : List Event)
    (hk : pod.Annotations.LastConfigMapKey.getD "" = hash) :
    synced env v g pod hash w1 tr =
      (clearSidecarUnreachable g, { v with world := w1, trace := tr }) := by
  simp [synced, hk, ProcessGroupStatus.UpdateCondition, clearSidecarUnreachable]

theorem synced_changed (env : Env σ C I) (v : LoopVars σ) (g : ProcessGroupStatus)
    (pod : Pod) (hash : String) (w1 : σ) (tr : List Event)
    (hk : pod.Annotations.LastConfigMapKey.getD "" ≠ hash) :
    synced env v g pod hash w1 tr =
      (clearSidecarUnreachable g,
        { allSynced := match (env.UpdateMetadata (podSynced pod hash) w1).1 with
            | some _ => false
            | none => v.allSynced
          delayedRequeue := v.delayedRequeue
          errs := match (env.UpdateMetadata (podSynced pod hash) w1).1 with
            | some e => v.errs ++ [e]
            | none => v.errs
          podMap := setPod v.podMap g.ProcessGroupID (podSynced pod hash)
          world := (env.UpdateMetadata (podSynced pod hash) w1).2
          trace := tr ++ [Event.UpdateMetadata g.ProcessGroupID (podSynced pod hash)
            (env.UpdateMetadata (podSynced pod hash) w1).1] }) := by
  simp [synced, hk, ProcessGroupStatus.UpdateCondition, clearSidecarUnreachable, podSynced]

theorem syncInv_notSynced (env : Env σ C I) (v : LoopVars σ) (g : ProcessGroupStatus)
    (pod : Pod) (err : Option GoError) (w1 : σ) :
    SyncInv (notSynced env v g pod err w1
      (v.trace ++ [Event.updatePodDynamicConf g.ProcessGroupID pod false err])).2 := by
  constructor
  · intro _
    left
    exact ⟨Event.updatePodDynamicConf g.ProcessGroupID pod false err,
      by simp [notSynced], rfl⟩
  · intro _
    simp [notSynced]

theorem syncInv_synced (env : Env σ C I) (v : LoopVars σ) (g : ProcessGroupStatus)
    (pod : Pod) (hash : String) (err : Option GoError) (w1 : σ) (hv : SyncInv v) :
    SyncInv (synced env v g pod hash w1
      (v.trace ++ [Event.updatePodDynamicConf g.ProcessGroupID pod true err])).2 := by
  obtain ⟨h1, h2⟩ := hv
  by_cases hk : pod.Annotations.LastConfigMapKey.getD "" = hash
  · rw [synced_same env v g pod hash w1 _ hk]
    constructor
    · intro ha
      rcases h1 ha with ⟨e, he, hu⟩ | h
      · left; exact ⟨e, by simp [he], hu⟩
      · right; exact h
    · rintro ⟨e, he, hue⟩
      simp only [List.mem_append, List.mem_singleton] at he
      rcases he with he | he
      · exact h2 ⟨e, he, hue⟩
      · subst he; simp [Event.isUnsyncedPush] at hue
  · rw [synced_changed env v g pod hash w1 _ hk]
    cases hu : (env.UpdateMetadata (podSynced pod hash) w1).1 with
    | none =>
      constructor
      · intro ha
        rcases h1 ha with ⟨e, he, hu⟩ | h
        · left; exact ⟨e, by simp [he], hu⟩
        · right; exact h
      · rintro ⟨e, he, hue⟩
        simp only [List.mem_append, List.mem_singleton] at he
        rcases he with (he | he) | he
        · exact h2 ⟨e, he, hue⟩
        · subst he; simp [Event.isUnsyncedPush] at hue
        · subst he; simp [Event.isUnsyncedPush] at hue
    | some e0 =>
      constructor
      · intro _; right; simp
      · intro _; rfl

theorem pushConfig_converged (env : Env σ C I) (v : LoopVars σ) (g : ProcessGroupStatus)
    (pod : Pod) (hash : String)
    (hk : pod.Annotations.LastConfigMapKey.getD "" = hash)
    (hu : env.IsBeingUpgradedWithVersionIncompatibleVersion = false) :
    pushConfig env v g pod hash = (g, v) := by
  simp [pushConfig, hk, hu]

theorem pushConfig_notSynced (env : Env σ C I) (v : LoopVars σ) (g : ProcessGroupStatus)
    (pod : Pod) (hash : String)
    (hk : ¬ (pod.Annotations.LastConfigMapKey.getD "" = hash ∧
      env.IsBeingUpgradedWithVersionIncompatibleVersion = false))
    (hs : (env.updatePodDynamicConf pod v.world).1.1 = false) :
    pushConfig env v g pod hash =
      notSynced env v g pod (env.updatePodDynamicConf pod v.world).1.2
        (env.updatePodDynamicConf pod v.world).2
        (v.trace ++ [Event.updatePodDynamicConf g.ProcessGroupID pod false
          (env.updatePodDynamicConf pod v.world).1.2]) := by
  unfold pushConfig
  rw [if_neg hk]
  simp only [hs, if_true]

theorem pushConfig_synced (env : Env σ C I) (v : LoopVars σ) (g : ProcessGroupStatus)
    (pod : Pod) (hash : String)
    (hk : ¬ (pod.Annotations.LastConfigMapKey.getD "" = hash ∧
      env.IsBeingUpgradedWithVersionIncompatibleVersion = false))
    (hs : (env.updatePodDynamicConf pod v.world).1.1 = true) :
    pushConfig env v g pod hash =
      synced env v g pod hash (env.updatePodDynamicConf pod v.world).2
        (v.trace ++ [Event.updatePodDynamicConf g.ProcessGroupID pod true
          (env.updatePodDynamicConf pod v.world).1.2]) := by
  unfold pushConfig
  rw [if_neg hk]
  simp only [hs, Bool.true_eq_false, if_false]

theorem loopBody_resolved (env : Env σ C I) (configMap : C) (v : LoopVars σ)
    (g : ProcessGroupStatus) (pod : Pod) (hash : String)
    (hr : g.IsMarkedForRemoval = false) (hsk : env.SkipProcessGroup g = false)
    (hp : v.podMap g.ProcessGroupID = some pod)
    (hh : resolveHash env configMap pod = .ok hash) :
    loopBody env configMap v g = pushConfig env v g pod hash := by
  simp [loopBody, hr, hsk, hp, hh]

theorem loopBody_resolveError (env : Env σ C I) (configMap : C) (v : LoopVars σ)
    (g : ProcessGroupStatus) (pod : Pod) (err : GoError)
    (hr : g.IsMarkedForRemoval = false) (hsk : env.SkipProcessGroup g = false)
    (hp : v.podMap g.ProcessGroupID = some pod)
    (hh : resolveHash env configMap pod = .error err) :
    loopBody env configMap v g = (g, { v with errs := v.errs ++ [err] }) := by
  simp [loopBody, hr, hsk, hp, hh]

/-- The cases of one loop iteration. -/
theorem loopBody_cases (env : Env σ C I) (configMap : C) (v : LoopVars σ)
    (g : ProcessGroupStatus) :
    loopBody env configMap v g = (g, v) ∨
    (∃ err, loopBody env configMap v g = (g, { v with errs := v.errs ++ [err] })) ∨
    (∃ pod hash, v.podMap g.ProcessGroupID = some pod ∧
      resolveHash env configMap pod = .ok hash ∧
      ¬ (pod.Annotations.LastConfigMapKey.getD "" = hash ∧
        env.IsBeingUpgradedWithVersionIncompatibleVersion = false) ∧
      (((env.updatePodDynamicConf pod v.world).1.1 = false ∧
        loopBody env configMap v g =
          notSynced env v g pod (env.updatePodDynamicConf pod v.world).1.2
            (env.updatePodDynamicConf pod v.world).2
            (v.trace ++ [Event.updatePodDynamicConf g.ProcessGroupID pod false
              (env.updatePodDynamicConf pod v.world).1.2])) ∨
       ((env.updatePodDynamicConf pod v.world).1.1 = true ∧
        loopBody env configMap v g =
          synced env v g pod hash (env.updatePodDynamicConf pod v.world).2
            (v.trace ++ [Event.updatePodDynamicConf g.ProcessGroupID pod true
              (env.updatePodDynamicConf pod v.world).1.2])))) := by
  by_cases hr : g.IsMarkedForRemoval = true
  · left; simp [loopBody, hr]
  by_cases hsk : env.SkipProcessGroup g = true
  · left; simp [loopBody, hsk]
  have hr0 : g.IsMarkedForRemoval = false := by simpa using hr
  have hsk0 : env.SkipProcessGroup g = false := by simpa using hsk
  cases hp : v.podMap g.ProcessGroupID with
  | none => left; simp [loopBody, hp]
  | some pod =>
    cases hh : resolveHash env configMap pod with
    | error err => right; left; exact ⟨err, loopBody_resolveError env configMap v g pod err hr0 hsk0 hp hh⟩
    | ok hash =>
      rw [loopBody_resolved env configMap v g pod hash hr0 hsk0 hp hh]
      by_cases hk : pod.Annotations.LastConfigMapKey.getD "" = hash ∧
          env.IsBeingUpgradedWithVersionIncompatibleVersion = false
      · left; exact pushConfig_converged env v g pod hash hk.1 hk.2
      · right; right
        refine ⟨pod, hash, rfl, hh, hk, ?_⟩
        cases hs : (env.updatePodDynamicConf pod v.world).1.1 with
        | false =>
          left
          refine ⟨rfl, ?_⟩
          have := pushConfig_notSynced env v g pod hash hk hs
          rw [this]
        | true =>
          right
          refine ⟨rfl, ?_⟩
          have := pushConfig_synced env v g pod hash hk hs
          rw [this]

theorem syncInv_loopBody (env : Env σ C I) (configMap : C) (v : LoopVars σ)
    (g : ProcessGroupStatus) (hv : SyncInv v) : SyncInv (loopBody env configMap v g).2 := by
  rcases loopBody_cases env configMap v g with h | ⟨err, h⟩ | ⟨pod, hash, -, -, -, h⟩
  · rw [h]; exact hv
  · rw [h]
    exact ⟨fun _ => Or.inr (by simp), hv.2⟩
  · rcases h with ⟨-, h⟩ | ⟨-, h⟩
    · rw [h]; exact syncInv_notSynced env v g pod _ _
    · rw [h]; exact syncInv_synced env v g pod hash _ _ hv

theorem syncInv_loop (env : Env σ C I) (configMap : C)
    (processGroups : List ProcessGroupStatus) (podMap : ProcessGroupID → Option Pod) (w : σ) :
    SyncInv (loop env configMap processGroups (initVars podMap w)).2 :=
  loop_preserves env configMap SyncInv (syncInv_loopBody env configMap) processGroups _
    (syncInv_init podMap w)

theorem reconcile_eq_finish (env : Env σ C I) (Status : FoundationDBClusterStatus) (w w1 : σ)
    (configMap : C) (pods : List Pod)
    (hcm : env.GetConfigMap = .ok configMap) (hpods : env.GetPods w = (.ok pods, w1)) :
    updatePodConfig.reconcile env Status w =
      finish env Status
        (loop env configMap Status.ProcessGroups (initVars (env.CreatePodMap pods) w1)).1
        (loop env configMap Status.ProcessGroups (initVars (env.CreatePodMap pods) w1)).2 := by
  simp [updatePodConfig.reconcile, hcm, hpods]

/-- When no status write fails, `finish` returns the aggregate signal. -/
theorem finish_result (env : Env σ C I) (originalStatus : FoundationDBClusterStatus)
    (processGroups : List ProcessGroupStatus) (v : LoopVars σ)
    (hwrite : ∀ e ∈ (finish env originalStatus processGroups v).trace,
      e.isFailedStatusWrite = false) :
    (finish env originalStatus processGroups v).result = aggregate env v := by
  by_cases hne : ({ ProcessGroups := processGroups } : FoundationDBClusterStatus) ≠ originalStatus
  · cases hw : (env.updateOrApply { ProcessGroups := processGroups } v.world).1 with
    | none =>
      dsimp only [finish]
      rw [if_pos hne]
      simp only [hw]
    | some err =>
      exfalso
      dsimp only [finish] at hwrite
      rw [if_pos hne] at hwrite
      simp only [hw] at hwrite
      have := hwrite (Event.updateOrApply { ProcessGroups := processGroups } (some err))
        (by simp)
      simp [Event.isFailedStatusWrite] at this
  · dsimp only [finish]
    rw [if_neg hne]

theorem aggregate_errs (env : Env σ C I) (v : LoopVars σ) (he : v.errs ≠ []) :
    aggregate env v = some { curError := none
                             message := "errors occurred during update pod config reconcile"
                             delay := 0
                             delayedRequeue := false } := by
  have : v.errs.length > 0 := List.length_pos.mpr he
  simp [aggregate, this]

theorem aggregate_waiting (env : Env σ C I) (v : LoopVars σ) (he : v.errs = [])
    (ha : v.allSynced = false) :
    aggregate env v = some { curError := none
                             message := "Waiting for Pod to receive ConfigMap update"
                             delay := env.podSchedulingDelayDuration
                             delayedRequeue := v.delayedRequeue } := by
  simp [aggregate, he, ha]

theorem aggregate_done (env : Env σ C I) (v : LoopVars σ) (he : v.errs = [])
    (ha : v.allSynced = true) : aggregate env v = none := by
  simp [aggregate, he, ha]

theorem loop_append (env : Env σ C I) (configMap : C) (a b : List ProcessGroupStatus) :
    ∀ v : LoopVars σ, loop env configMap (a ++ b) v =
      ((loop env configMap a v).1 ++ (loop env configMap b (loop env configMap a v).2).1,
        (loop env configMap b (loop env configMap a v).2).2) := by
  induction a with
  | nil => intro v; simp [loop]
  | cons g rest ih => intro v; simp [loop, ih]

theorem loop_length (env : Env σ C I) (configMap : C) (pgs : List ProcessGroupStatus) :
    ∀ v : LoopVars σ, (loop env configMap pgs v).1.length = pgs.length := by
  induction pgs with
  | nil => intro v; simp [loop]
  | cons g rest ih => intro v; simp [loop, ih]

/-- The loop over `pre ++ g :: post`, split at `g`. -/
theorem loop_split (env : Env σ C I) (configMap : C) (pre post : List ProcessGroupStatus)
    (g : ProcessGroupStatus) (v : LoopVars σ) :
    loop env configMap (pre ++ g :: post) v =
      ((loop env configMap pre v).1 ++
          (loopBody env configMap (loop env configMap pre v).2 g).1 ::
          (loop env configMap post (loopBody env configMap (loop env configMap pre v).2 g).2).1,
        (loop env configMap post (loopBody env configMap (loop env configMap pre v).2 g).2).2) := by
  rw [loop_append]
  simp [loop]

theorem loop_preserves_mem (env : Env σ C I) (configMap : C) (P : LoopVars σ → Prop) :
    ∀ (pgs : List ProcessGroupStatus),
      (∀ g ∈ pgs, ∀ v, P v → P (loopBody env configMap v g).2) →
      ∀ v : LoopVars σ, P v → P (loop env configMap pgs v).2 := by
  intro pgs
  induction pgs with
  | nil => intro _ v hv; simpa [loop] using hv
  | cons g rest ih =>
    intro hstep v hv
    simp only [loop]
    exact ih (fun g1 hg1 => hstep g1 (List.mem_cons_of_mem _ hg1)) _
      (hstep g (List.mem_cons_self _ _) v hv)

/-- The status list of the pass, at the position of `g`. -/
theorem loop_split_getElem (env : Env σ C I) (configMap : C)
    (pre post : List ProcessGroupStatus) (g : ProcessGroupStatus) (v : LoopVars σ) :
    (loop env configMap (pre ++ g :: post) v).1[pre.length]? =
      some (loopBody env configMap (loop env configMap pre v).2 g).1 := by
  rw [loop_split]
  have hl := loop_length env configMap pre v
  simp only
  rw [List.getElem?_append_right (by omega)]
  simp [hl]

/-- Groups that an invariant of the loop variables keeps as they are stay
as they are in the status list of the pass. -/
theorem loop_keeps (env : Env σ C I) (configMap : C) (P : LoopVars σ → Prop)
    (Q : ProcessGroupStatus → Prop)
    (hP : ∀ v g, P v → P (loopBody env configMap v g).2)
    (hQ : ∀ v g, P v → Q g → (loopBody env configMap v g).1 = g) :
    ∀ (pgs : List ProcessGroupStatus) (v : LoopVars σ), P v →
      ∀ (i : Nat) (g : ProcessGroupStatus), pgs[i]? = some g → Q g →
        (loop env configMap pgs v).1[i]? = some g := by
  intro pgs
  induction pgs with
  | nil => intro v _ i g hi; simp at hi
  | cons g0 rest ih =>
    intro v hv i g hi hq
    cases i with
    | zero =>
      simp only [List.getElem?_cons_zero, Option.some.injEq] at hi
      subst hi
      simp [loop, hQ v g0 hv hq]
    | succ j =>
      simp only [List.getElem?_cons_succ] at hi
      simp only [loop, List.getElem?_cons_succ]
      exact ih _ (hP v g0 hv) j g hi hq

/-- A loop whose every iteration returns its group unchanged returns the
list unchanged. -/
theorem loop_fixed (env : Env σ C I) (configMap : C) (P : LoopVars σ → Prop) :
    ∀ (pgs : List ProcessGroupStatus),
      (∀ g ∈ pgs, ∀ v, P v →
        P (loopBody env configMap v g).2 ∧ (loopBody env configMap v g).1 = g) →
      ∀ v : LoopVars σ, P v →
        (loop env configMap pgs v).1 = pgs ∧ P (loop env configMap pgs v).2 := by
  intro pgs
  induction pgs with
  | nil => intro _ v hv; simpa [loop] using hv
  | cons g rest ih =>
    intro hstep v hv
    have h0 := hstep g (List.mem_cons_self _ _) v hv
    have h1 := ih (fun g1 hg1 => hstep g1 (List.mem_cons_of_mem _ hg1)) _ h0.1
    simp only [loop]
    exact ⟨by rw [h0.2, h1.1], h1.2⟩

theorem setPod_ne (podMap : ProcessGroupID → Option Pod) (id id1 : ProcessGroupID) (pod : Pod)
    (h : id ≠ id1) : setPod podMap id1 pod id = podMap id := by
  simp [setPod, h]

theorem setPod_self (podMap : ProcessGroupID → Option Pod) (id : ProcessGroupID) (pod : Pod) :
    setPod podMap id pod id = some pod := by
  simp [setPod]

/-- An iteration for another process group leaves the pod of `id` and the
calls for `id` as they are. -/
theorem loopBody_other (env : Env σ C I) (configMap : C) (v : LoopVars σ)
    (g : ProcessGroupStatus) (id : ProcessGroupID) (hne : g.ProcessGroupID ≠ id) :
    (loopBody env configMap v g).2.podMap id = v.podMap id ∧
    ∀ e ∈ (loopBody env configMap v g).2.trace,
      e ∈ v.trace ∨ (e.isPushFor id = false ∧ e.isMetadataFor id = false) := by
  have hne1 : id ≠ g.ProcessGroupID := fun h => hne h.symm
  rcases loopBody_cases env configMap v g with h | ⟨err, h⟩ | ⟨pod, hash, -, -, -, h⟩
  · rw [h]; exact ⟨rfl, fun e he => Or.inl he⟩
  · rw [h]; exact ⟨rfl, fun e he => Or.inl he⟩
  · rcases h with ⟨-, h⟩ | ⟨-, h⟩
    · rw [h]
      refine ⟨by simp [notSynced, setPod_ne _ _ _ _ hne1], ?_⟩
      intro e he
      simp only [notSynced, List.mem_append, List.mem_singleton] at he
      rcases he with (he | he) | he
      · exact Or.inl he
      · right; subst he; simp [Event.isPushFor, Event.isMetadataFor, hne]
      · right; subst he; simp [Event.isPushFor, Event.isMetadataFor, hne]
    · by_cases hk : pod.Annotations.LastConfigMapKey.getD "" = hash
      · rw [h, synced_same env v g pod hash _ _ hk]
        refine ⟨rfl, ?_⟩
        intro e he
        simp only [List.mem_append, List.mem_singleton] at he
        rcases he with he | he
        · exact Or.inl he
        · right; subst he; simp [Event.isPushFor, Event.isMetadataFor, hne]
      · rw [h, synced_changed env v g pod hash _ _ hk]
        refine ⟨by simp [setPod_ne _ _ _ _ hne1], ?_⟩
        intro e he
        simp only [List.mem_append, List.mem_singleton] at he
        rcases he with (he | he) | he
        · exact Or.inl he
        · right; subst he; simp [Event.isPushFor, Event.isMetadataFor, hne]
        · right; subst he; simp [Event.isPushFor, Event.isMetadataFor, hne]

/-- An iteration whose pod already carries the hash changes nothing. -/
theorem loopBody_converged (env : Env σ C I) (configMap : C) (v : LoopVars σ)
    (g : ProcessGroupStatus) (pod : Pod) (hash : String)
    (hup : env.IsBeingUpgradedWithVersionIncompatibleVersion = false)
    (hp : v.podMap g.ProcessGroupID = some pod)
    (hh : resolveHash env configMap pod = .ok hash)
    (hk : pod.Annotations.LastConfigMapKey.getD "" = hash) :
    loopBody env configMap v g = (g, v) := by
  by_cases hr : g.IsMarkedForRemoval = true
  · simp [loopBody, hr]
  by_cases hsk : env.SkipProcessGroup g = true
  · simp [loopBody, hsk]
  rw [loopBody_resolved env configMap v g pod hash (by simpa using hr) (by simpa using hsk) hp hh]
  exact pushConfig_converged env v g pod hash hk hup

theorem untouched_loopBody (env : Env σ C I) (configMap : C) (id : ProcessGroupID) (pod : Pod)
    (hash : String) (hup : env.IsBeingUpgradedWithVersionIncompatibleVersion = false)
    (hh : resolveHash env configMap pod = .ok hash)
    (hk : pod.Annotations.LastConfigMapKey.getD "" = hash)
    (v : LoopVars σ) (g : ProcessGroupStatus) (hv : Untouched id pod v) :
    Untouched id pod (loopBody env configMap v g).2 := by
  by_cases hid : g.ProcessGroupID = id
  · have hp : v.podMap g.ProcessGroupID = some pod := by rw [hid]; exact hv.1
    rw [loopBody_converged env configMap v g pod hash hup hp hh hk]
    exact hv
  · obtain ⟨h1, h2⟩ := loopBody_other env configMap v g id hid
    refine ⟨by rw [h1]; exact hv.1, ?_⟩
    intro e he
    rcases h2 e he with h | h
    · exact hv.2 e h
    · exact h

/-- The trace of `finish` is the loop's trace, with at most a status write
after it. -/
theorem finish_trace (env : Env σ C I) (originalStatus : FoundationDBClusterStatus)
    (processGroups : List ProcessGroupStatus) (v : LoopVars σ) :
    ∀ e ∈ (finish env originalStatus processGroups v).trace,
      e ∈ v.trace ∨ e.isStatusWrite = true := by
  intro e he
  by_cases hne : ({ ProcessGroups := processGroups } : FoundationDBClusterStatus) ≠ originalStatus
  · dsimp only [finish] at he
    rw [if_pos hne] at he
    cases hw : (env.updateOrApply { ProcessGroups := processGroups } v.world).1 with
    | none =>
      simp only [hw, List.mem_append, List.mem_singleton] at he
      rcases he with he | he
      · exact Or.inl he
      · right; subst he; rfl
    | some err =>
      simp only [hw, List.mem_append, List.mem_singleton] at he
      rcases he with he | he
      · exact Or.inl he
      · right; subst he; rfl
  · dsimp only [finish] at he
    rw [if_neg hne] at he
    exact Or.inl he

theorem finish_Status (env : Env σ C I) (originalStatus : FoundationDBClusterStatus)
    (processGroups : List ProcessGroupStatus) (v : LoopVars σ) :
    (finish env originalStatus processGroups v).Status = { ProcessGroups := processGroups } := by
  dsimp only [finish]
  split
  · split <;> rfl
  · rfl

theorem finish_podMap (env : Env σ C I) (originalStatus : FoundationDBClusterStatus)
    (processGroups : List ProcessGroupStatus) (v : LoopVars σ) :
    (finish env originalStatus processGroups v).podMap = v.podMap := by
  dsimp only [finish]
  split
  · split <;> rfl
  · rfl

theorem getConditionTime_withCondition_new (g : ProcessGroupStatus)
    (c : ProcessGroupConditionType) (t : Int) (h : g.GetConditionTime c = none) :
    (withCondition g c t).GetConditionTime c = some t := by
  simp only [ProcessGroupStatus.GetConditionTime, Option.map_eq_none'] at h
  simp [ProcessGroupStatus.GetConditionTime, withCondition, List.find?_append, h]

theorem getConditionTime_withCondition_other (g : ProcessGroupStatus)
    (c c1 : ProcessGroupConditionType) (t : Int) (h : c1 ≠ c) :
    (withCondition g c1 t).GetConditionTime c = g.GetConditionTime c := by
  simp only [ProcessGroupStatus.GetConditionTime, withCondition, List.find?_append]
  cases hf : g.ProcessGroupConditions.find? (fun x => x.ProcessGroupConditionType = c) with
  | some x => simp
  | none => simp [h]

theorem updateCondition_set_new (now : σ → Int × σ) (g : ProcessGroupStatus)
    (c : ProcessGroupConditionType) (w : σ) (h : g.GetConditionTime c = none) :
    g.UpdateCondition now c true w = (withCondition g c (now w).1, (now w).2) := by
  simp [ProcessGroupStatus.UpdateCondition, h, withCondition]

theorem notSynced_allSynced (env : Env σ C I) (v : LoopVars σ) (g : ProcessGroupStatus)
    (pod : Pod) (err : Option GoError) (w1 : σ) (tr : List Event) :
    (notSynced env v g pod err w1 tr).2.allSynced = false := rfl

/-- Lines 115-117: a network error on a group without `SidecarUnreachable`. -/
theorem notSynced_sidecar (env : Env σ C I) (v : LoopVars σ) (g : ProcessGroupStatus)
    (pod : Pod) (err : Option GoError) (w1 : σ) (tr : List Event)
    (hnet : env.IsNetworkError err = true)
    (hc : g.GetConditionTime ProcessGroupConditionType.SidecarUnreachable = none) :
    (notSynced env v g pod err w1 tr).1 =
        withCondition g ProcessGroupConditionType.SidecarUnreachable (env.Now w1).1 ∧
      (notSynced env v g pod err w1 tr).2.delayedRequeue = v.delayedRequeue := by
  simp [notSynced, hnet, hc, updateCondition_set_new]

/-- Lines 118-123: any other failure on a group without `IncorrectConfigMap`. -/
theorem notSynced_incorrect (env : Env σ C I) (v : LoopVars σ) (g : ProcessGroupStatus)
    (pod : Pod) (err : Option GoError) (w1 : σ) (tr : List Event)
    (hnet : ¬ (env.IsNetworkError err = true ∧
      g.GetConditionTime ProcessGroupConditionType.SidecarUnreachable = none))
    (hc : g.GetConditionTime ProcessGroupConditionType.IncorrectConfigMap = none) :
    (notSynced env v g pod err w1 tr).1 =
        withCondition g ProcessGroupConditionType.IncorrectConfigMap (env.Now w1).1 ∧
      (notSynced env v g pod err w1 tr).2.delayedRequeue = false := by
  simp only [notSynced]
  rw [if_neg hnet, if_pos hc]
  simp [updateCondition_set_new, hc]

/-- Neither branch applies: the conditions stay. -/
theorem notSynced_neither (env : Env σ C I) (v : LoopVars σ) (g : ProcessGroupStatus)
    (pod : Pod) (err : Option GoError) (w1 : σ) (tr : List Event)
    (hnet : ¬ (env.IsNetworkError err = true ∧
      g.GetConditionTime ProcessGroupConditionType.SidecarUnreachable = none))
    (hc : g.GetConditionTime ProcessGroupConditionType.IncorrectConfigMap ≠ none) :
    (notSynced env v g pod err w1 tr).1 = g ∧
      (notSynced env v g pod err w1 tr).2.delayedRequeue = v.delayedRequeue := by
  simp only [notSynced]
  rw [if_neg hnet, if_neg hc]
  simp

/-- An iteration that gets to the push and does not sync is `notSynced`. -/
theorem loopBody_pushed_notSynced (env : Env σ C I) (configMap : C) (v : LoopVars σ)
    (g : ProcessGroupStatus) (pod : Pod) (hash : String) (err : Option GoError) (w2 : σ)
    (hp : Pushed env configMap v g pod hash)
    (hres : env.updatePodDynamicConf pod v.world = ((false, err), w2)) :
    loopBody env configMap v g =
      notSynced env v g pod err w2
        (v.trace ++ [Event.updatePodDynamicConf g.ProcessGroupID pod false err]) := by
  obtain ⟨hr, hsk, hpod, hh, hk⟩ := hp
  rw [loopBody_resolved env configMap v g pod hash hr hsk hpod hh,
    pushConfig_notSynced env v g pod hash hk (by rw [hres]), hres]

/-- An iteration that gets to the push and syncs is `synced`. -/
theorem loopBody_pushed_synced (env : Env σ C I) (configMap : C) (v : LoopVars σ)
    (g : ProcessGroupStatus) (pod : Pod) (hash : String) (err : Option GoError) (w2 : σ)
    (hp : Pushed env configMap v g pod hash)
    (hres : env.updatePodDynamicConf pod v.world = ((true, err), w2)) :
    loopBody env configMap v g =
      synced env v g pod hash w2
        (v.trace ++ [Event.updatePodDynamicConf g.ProcessGroupID pod true err]) := by
  obtain ⟨hr, hsk, hpod, hh, hk⟩ := hp
  rw [loopBody_resolved env configMap v g pod hash hr hsk hpod hh,
    pushConfig_synced env v g pod hash hk (by rw [hres]), hres]

/-- The two flags only ever go from true to false. -/
theorem flags_loopBody (env : Env σ C I) (configMap : C) (v : LoopVars σ)
    (g : ProcessGroupStatus) :
    (v.allSynced = false → (loopBody env configMap v g).2.allSynced = false) ∧
    (v.delayedRequeue = false → (loopBody env configMap v g).2.delayedRequeue = false) := by
  rcases loopBody_cases env configMap v g with h | ⟨err, h⟩ | ⟨pod, hash, -, -, -, h⟩
  · rw [h]; exact ⟨id, id⟩
  · rw [h]; exact ⟨id, id⟩
  · rcases h with ⟨-, h⟩ | ⟨-, h⟩
    · rw [h]
      refine ⟨fun _ => rfl, fun hd => ?_⟩
      simp only [notSynced]
      split
      · exact hd
      · split
        · rfl
        · exact hd
    · by_cases hk : pod.Annotations.LastConfigMapKey.getD "" = hash
      · rw [h, synced_same env v g pod hash _ _ hk]; exact ⟨id, id⟩
      · rw [h, synced_changed env v g pod hash _ _ hk]
        refine ⟨fun ha => ?_, id⟩
        simp only
        split
        · rfl
        · exact ha

/-- With both flags false, the pass asks for a retry that is not delayed. -/
theorem finish_not_delayed (env : Env σ C I) (originalStatus : FoundationDBClusterStatus)
    (processGroups : List ProcessGroupStatus) (v : LoopVars σ)
    (ha : v.allSynced = false) (hd : v.delayedRequeue = false) :
    ∃ q, (finish env originalStatus processGroups v).result = some q ∧
      q.delayedRequeue = false := by
  have hagg : ∃ q, aggregate env v = some q ∧ q.delayedRequeue = false := by
    by_cases he : v.errs = []
    · exact ⟨_, aggregate_waiting env v he ha, hd⟩
    · exact ⟨_, aggregate_errs env v he, rfl⟩
  dsimp only [finish]
  split
  · split
    · exact ⟨_, rfl, rfl⟩
    · exact hagg
  · exact hagg

theorem getConditionTime_clearSidecarUnreachable (g : ProcessGroupStatus) :
    (clearSidecarUnreachable g).GetConditionTime ProcessGroupConditionType.SidecarUnreachable =
      none := by
  simp only [ProcessGroupStatus.GetConditionTime, clearSidecarUnreachable,
    Option.map_eq_none', List.find?_eq_none]
  intro x hx
  have := (List.mem_filter.mp hx).2
  simpa using this

/-- Iterations for other process groups leave the pod of `id` in place. -/
theorem loop_podMap_other (env : Env σ C I) (configMap : C) (id : ProcessGroupID)
    (pgs : List ProcessGroupStatus) (hne : ∀ g ∈ pgs, g.ProcessGroupID ≠ id)
    (v : LoopVars σ) :
    (loop env configMap pgs v).2.podMap id = v.podMap id :=
  loop_preserves_mem env configMap (fun v1 => v1.podMap id = v.podMap id) pgs
    (fun g hg v1 hv1 => by
      show (loopBody env configMap v1 g).2.podMap id = v.podMap id
      rw [(loopBody_other env configMap v1 g id (hne g hg)).1]; exact hv1)
    v rfl

/-- An iteration never reads `errs`. -/
theorem loopBody_agree (env : Env σ C I) (configMap : C) (a b : LoopVars σ)
    (g : ProcessGroupStatus) (h : AgreeButErrs a b) :
    (loopBody env configMap a g).1 = (loopBody env configMap b g).1 ∧
      AgreeButErrs (loopBody env configMap a g).2 (loopBody env configMap b g).2 := by
  obtain ⟨h1, h2, h3, h4, h5⟩ := h
  by_cases hr : g.IsMarkedForRemoval = true
  · simp [loopBody, hr, AgreeButErrs, h1, h2, h3, h4, h5]
  by_cases hsk : env.SkipProcessGroup g = true
  · simp [loopBody, hsk, AgreeButErrs, h1, h2, h3, h4, h5]
  have hr0 : g.IsMarkedForRemoval = false := by simpa using hr
  have hsk0 : env.SkipProcessGroup g = false := by simpa using hsk
  cases hp : b.podMap g.ProcessGroupID with
  | none =>
    have hpa : a.podMap g.ProcessGroupID = none := by rw [h3]; exact hp
    simp [loopBody, hp, hpa, AgreeButErrs, h1, h2, h3, h4, h5]
  | some pod =>
    have hpa : a.podMap g.ProcessGroupID = some pod := by rw [h3]; exact hp
    cases hh : resolveHash env configMap pod with
    | error err =>
      rw [loopBody_resolveError env configMap a g pod err hr0 hsk0 hpa hh,
        loopBody_resolveError env configMap b g pod err hr0 hsk0 hp hh]
      exact ⟨rfl, h1, h2, h3, h4, h5⟩
    | ok hash =>
      rw [loopBody_resolved env configMap a g pod hash hr0 hsk0 hpa hh,
        loopBody_resolved env configMap b g pod hash hr0 hsk0 hp hh]
      by_cases hk : pod.Annotations.LastConfigMapKey.getD "" = hash ∧
          env.IsBeingUpgradedWithVersionIncompatibleVersion = false
      · rw [pushConfig_converged env a g pod hash hk.1 hk.2,
          pushConfig_converged env b g pod hash hk.1 hk.2]
        exact ⟨rfl, h1, h2, h3, h4, h5⟩
      · cases hs : (env.updatePodDynamicConf pod b.world).1.1 with
        | false =>
          have hsa : (env.updatePodDynamicConf pod a.world).1.1 = false := by rw [h4]; exact hs
          rw [pushConfig_notSynced env a g pod hash hk hsa,
            pushConfig_notSynced env b g pod hash hk hs]
          simp [notSynced, AgreeButErrs, h2, h3, h4, h5]
        | true =>
          have hsa : (env.updatePodDynamicConf pod a.world).1.1 = true := by rw [h4]; exact hs
          rw [pushConfig_synced env a g pod hash hk hsa,
            pushConfig_synced env b g pod hash hk hs]
          by_cases hk1 : pod.Annotations.LastConfigMapKey.getD "" = hash
          · rw [synced_same env a g pod hash _ _ hk1, synced_same env b g pod hash _ _ hk1]
            simp [AgreeButErrs, h1, h2, h3, h4, h5]
          · rw [synced_changed env a g pod hash _ _ hk1,
              synced_changed env b g pod hash _ _ hk1]
            simp [AgreeButErrs, h1, h2, h3, h4, h5]

theorem loop_agree (env : Env σ C I) (configMap : C) :
    ∀ (pgs : List ProcessGroupStatus) (a b : LoopVars σ), AgreeButErrs a b →
      (loop env configMap pgs a).1 = (loop env configMap pgs b).1 ∧
        AgreeButErrs (loop env configMap pgs a).2 (loop env configMap pgs b).2 := by
  intro pgs
  induction pgs with
  | nil => intro a b h; exact ⟨rfl, h⟩
  | cons g rest ih =>
    intro a b h
    have h0 := loopBody_agree env configMap a b g h
    have h1 := ih _ _ h0.2
    simp only [loop]
    exact ⟨by rw [h0.1, h1.1], h1.2⟩

/-- Errors are only ever added. -/
theorem errs_loopBody (env : Env σ C I) (configMap : C) (v : LoopVars σ)
    (g : ProcessGroupStatus) (hv : v.errs ≠ []) :
    (loopBody env configMap v g).2.errs ≠ [] := by
  rcases loopBody_cases env configMap v g with h | ⟨err, h⟩ | ⟨pod, hash, -, -, -, h⟩
  · rw [h]; exact hv
  · rw [h]; simp
  · rcases h with ⟨-, h⟩ | ⟨-, h⟩
    · rw [h]
      simp only [notSynced]
      split
      · simp
      · exact hv
    · by_cases hk : pod.Annotations.LastConfigMapKey.getD "" = hash
      · rw [h, synced_same env v g pod hash _ _ hk]; exact hv
      · rw [h, synced_changed env v g pod hash _ _ hk]
        simp only
        split
        · simp
        · exact hv

/-- The calls of the pass other than the status write are the loop's. -/
theorem finish_trace_filter (env : Env σ C I) (originalStatus : FoundationDBClusterStatus)
    (processGroups : List ProcessGroupStatus) (v : LoopVars σ) :
    (finish env originalStatus processGroups v).trace.filter (fun e => !e.isStatusWrite) =
      v.trace.filter (fun e => !e.isStatusWrite) := by
  dsimp only [finish]
  split
  · split <;> simp [Event.isStatusWrite]
  · rfl

end Lemmas

/-! ## Theorems on `updatePodConfig.reconcile` -/

section Claims

variable {σ C I : Type}

/-- C1: when the config map and the pods are fetched and no status write
fails, the pass returns, with `errs`, `delayedRequeue` and the trace as the
loop leaves them: the message-only signal "errors occurred during update pod
config reconcile" (no error, zero delay) as soon as one per-group error was
collected, whatever the pushes did; otherwise, when some push did not sync,
the signal "Waiting for Pod to receive ConfigMap update" with delay
`podSchedulingDelayDuration` and the loop's `delayedRequeue`; otherwise nil. -/
theorem reconcile_aggregate (env : Env σ C I) (Status : FoundationDBClusterStatus) (w w1 : σ)
    (configMap : C) (pods : List Pod)
    (hcm : env.GetConfigMap = .ok configMap) (hpods : env.GetPods w = (.ok pods, w1))
    (hwrite : ∀ e ∈ (updatePodConfig.reconcile env Status w).trace,
      e.isFailedStatusWrite = false) :
    let v := (loop env configMap Status.ProcessGroups (initVars (env.CreatePodMap pods) w1)).2
    (v.errs ≠ [] →
      (updatePodConfig.reconcile env Status w).result =
        some { curError := none
               message := "errors occurred during update pod config reconcile"
               delay := 0
               delayedRequeue := false }) ∧
    (v.errs = [] → (∃ e ∈ v.trace, e.isUnsyncedPush = true) →
      (updatePodConfig.reconcile env Status w).result =
        some { curError := none
               message := "Waiting for Pod to receive ConfigMap update"
               delay := env.podSchedulingDelayDuration
               delayedRequeue := v.delayedRequeue }) ∧
    (v.errs = [] → (∀ e ∈ v.trace, e.isUnsyncedPush = false) →
      (updatePodConfig.reconcile env Status w).result = none) := by
  intro v
  have hinv : SyncInv v := syncInv_loop env configMap Status.ProcessGroups _ w1
  rw [reconcile_eq_finish env Status w w1 configMap pods hcm hpods] at hwrite ⊢
  rw [finish_result env Status _ _ hwrite]
  refine ⟨?_, ?_, ?_⟩
  · intro he
    exact aggregate_errs env v he
  · intro he hex
    exact aggregate_waiting env v he (hinv.2 hex)
  · intro he hall
    have ha : v.allSynced = true := by
      by_contra hc
      have hc0 : v.allSynced = false := by simpa using hc
      rcases hinv.1 hc0 with ⟨e, hm, hu⟩ | h
      · rw [hall e hm] at hu; exact Bool.noConfusion hu
      · exact h he
    exact aggregate_done env v he ha

/-- Witness for C1: one pod with a stale hash whose push does not sync. -/
theorem reconcile_aggregate_witness :
    (updatePodConfig.reconcile
        (Fixture.env [Fixture.pod "storage-1" (some "h0") none] (fun _ => (false, none)) false)
        { ProcessGroups := [Fixture.group "storage-1" []] } 0).result =
      some { curError := none
             message := "Waiting for Pod to receive ConfigMap update"
             delay := 15
             delayedRequeue := false } :=
  (reconcile_aggregate
    (Fixture.env [Fixture.pod "storage-1" (some "h0") none] (fun _ => (false, none)) false)
    { ProcessGroups := [Fixture.group "storage-1" []] } 0 0 ()
    [Fixture.pod "storage-1" (some "h0") none] rfl rfl (by decide)).2.1 rfl
    (by decide)

/-- C2: outside a version-incompatible upgrade, a process group whose pod
carries the freshly computed hash under `LastConfigMapKey` is left alone by
the pass: the trace holds no push and no metadata update for it, its pod is
as before, and every list entry with its ID is as before (conditions
included).  When every group that gets to the comparison has such a pod, the
status after the pass is the status before it, and the trace is empty: no
push, no metadata update, no status write. -/
theorem reconcile_converged (env : Env σ C I) (Status : FoundationDBClusterStatus) (w w1 : σ)
    (configMap : C) (pods : List Pod)
    (hcm : env.GetConfigMap = .ok configMap) (hpods : env.GetPods w = (.ok pods, w1))
    (hup : env.IsBeingUpgradedWithVersionIncompatibleVersion = false) :
    (∀ (id : ProcessGroupID) (pod : Pod) (hash : String),
      env.CreatePodMap pods id = some pod →
      resolveHash env configMap pod = .ok hash →
      pod.Annotations.LastConfigMapKey.getD "" = hash →
        (∀ e ∈ (updatePodConfig.reconcile env Status w).trace,
          e.isPushFor id = false ∧ e.isMetadataFor id = false) ∧
        (updatePodConfig.reconcile env Status w).podMap id = some pod ∧
        (∀ (i : Nat) (g : ProcessGroupStatus), Status.ProcessGroups[i]? = some g →
          g.ProcessGroupID = id →
          (updatePodConfig.reconcile env Status w).Status.ProcessGroups[i]? = some g)) ∧
    ((∀ g ∈ Status.ProcessGroups, ∀ (pod : Pod) (hash : String),
        g.IsMarkedForRemoval = false → env.SkipProcessGroup g = false →
        env.CreatePodMap pods g.ProcessGroupID = some pod →
        resolveHash env configMap pod = .ok hash →
        pod.Annotations.LastConfigMapKey.getD "" = hash) →
      (updatePodConfig.reconcile env Status w).Status = Status ∧
      (updatePodConfig.reconcile env Status w).trace = [] ∧
      (updatePodConfig.reconcile env Status w).podMap = env.CreatePodMap pods) := by
  rw [reconcile_eq_finish env Status w w1 configMap pods hcm hpods]
  constructor
  · intro id pod hash hp hh hk
    have h0 : Untouched id pod (initVars (env.CreatePodMap pods) w1) :=
      ⟨hp, by intro e he; simp [initVars] at he⟩
    have hstep := untouched_loopBody env configMap id pod hash hup hh hk
    have hfin := loop_preserves env configMap (Untouched id pod) hstep Status.ProcessGroups _ h0
    refine ⟨?_, ?_, ?_⟩
    · intro e he
      rcases finish_trace env Status _ _ e he with h | h
      · exact hfin.2 e h
      · cases e <;> simp [Event.isStatusWrite, Event.isPushFor, Event.isMetadataFor] at h ⊢
    · rw [finish_podMap]; exact hfin.1
    · intro i g hi hid
      rw [finish_Status]
      refine loop_keeps env configMap (Untouched id pod) (fun g => g.ProcessGroupID = id)
        hstep ?_ Status.ProcessGroups _ h0 i g hi hid
      intro v g1 hv hg1
      have hp1 : v.podMap g1.ProcessGroupID = some pod := by rw [hg1]; exact hv.1
      rw [loopBody_converged env configMap v g1 pod hash hup hp1 hh hk]
  · intro hall
    have key := loop_fixed env configMap
      (fun v => v.podMap = env.CreatePodMap pods ∧ v.trace = []) Status.ProcessGroups
      (by
        intro g hg v hv
        rcases loopBody_cases env configMap v g with h | ⟨err, h⟩ | ⟨pod, hash, hp, hh, hk, -⟩
        · rw [h]; exact ⟨hv, rfl⟩
        · rw [h]; exact ⟨hv, rfl⟩
        · by_cases hr : g.IsMarkedForRemoval = true
          · simp [loopBody, hr, hv]
          by_cases hsk : env.SkipProcessGroup g = true
          · simp [loopBody, hsk, hv]
          exfalso
          rw [hv.1] at hp
          exact hk ⟨hall g hg pod hash (by simpa using hr) (by simpa using hsk) hp hh, hup⟩)
      (initVars (env.CreatePodMap pods) w1) ⟨rfl, rfl⟩
    obtain ⟨hl, hpm, htr⟩ := key
    have hst : ({ ProcessGroups :=
        (loop env configMap Status.ProcessGroups (initVars (env.CreatePodMap pods) w1)).1 } :
        FoundationDBClusterStatus) = Status := by rw [hl]
    refine ⟨by rw [finish_Status, hst], ?_, by rw [finish_podMap, hpm]⟩
    dsimp only [finish]
    rw [hst]
    simp [htr]

/-- Witness for C2: two converged pods, outside an upgrade. -/
theorem reconcile_converged_witness :
    (updatePodConfig.reconcile
        (Fixture.env [Fixture.pod "storage-1" (some "h1") none,
          Fixture.pod "storage-2" (some "h1") (some "7")] (fun _ => (false, none)) false)
        { ProcessGroups := [Fixture.group "storage-1" [], Fixture.group "storage-2" []] }
        0).Status =
      { ProcessGroups := [Fixture.group "storage-1" [], Fixture.group "storage-2" []] } ∧
    (updatePodConfig.reconcile
        (Fixture.env [Fixture.pod "storage-1" (some "h1") none,
          Fixture.pod "storage-2" (some "h1") (some "7")] (fun _ => (false, none)) false)
        { ProcessGroups := [Fixture.group "storage-1" [], Fixture.group "storage-2" []] }
        0).trace = [] :=
  have h := (reconcile_converged
    (Fixture.env [Fixture.pod "storage-1" (some "h1") none,
      Fixture.pod "storage-2" (some "h1") (some "7")] (fun _ => (false, none)) false)
    { ProcessGroups := [Fixture.group "storage-1" [], Fixture.group "storage-2" []] } 0 0 ()
    [Fixture.pod "storage-1" (some "h1") none, Fixture.pod "storage-2" (some "h1") (some "7")]
    rfl rfl rfl).2 (by
      intro g hg pod hash _ _ hp hh
      simp only [List.mem_cons, List.mem_singleton, List.not_mem_nil, or_false] at hg
      rcases hg with rfl | rfl
      · simp [Fixture.env, Fixture.group, Fixture.pod] at hp
        subst hp
        simp [resolveHash, Fixture.env] at hh
        simp [← hh]
      · simp [Fixture.env, Fixture.group, Fixture.pod] at hp
        subst hp
        simp [resolveHash, Fixture.env] at hh
        simp [← hh])
  ⟨h.1, h.2.1⟩

/-- C3: when the iteration for a process group gets to the push, the push
does not sync, its error is no network error, and the group has no
`IncorrectConfigMap` condition, then after the pass the group carries the
`IncorrectConfigMap` condition (added at the time of the failure, nothing
else changed on the group), and the pass returns a signal, not nil, whose
`delayedRequeue` is false. -/
theorem reconcile_incorrectConfigMap (env : Env σ C I) (Status : FoundationDBClusterStatus)
    (w w1 w2 : σ) (configMap : C) (pods : List Pod) (pre post : List ProcessGroupStatus)
    (g : ProcessGroupStatus) (pod : Pod) (hash : String) (err : Option GoError)
    (hcm : env.GetConfigMap = .ok configMap) (hpods : env.GetPods w = (.ok pods, w1))
    (hsplit : Status.ProcessGroups = pre ++ g :: post)
    (hp : Pushed env configMap (reach env configMap pods w1 pre) g pod hash)
    (hres : env.updatePodDynamicConf pod (reach env configMap pods w1 pre).world =
      ((false, err), w2))
    (hnet : env.IsNetworkError err = false)
    (hc : g.GetConditionTime ProcessGroupConditionType.IncorrectConfigMap = none) :
    (updatePodConfig.reconcile env Status w).Status.ProcessGroups[pre.length]? =
        some (withCondition g ProcessGroupConditionType.IncorrectConfigMap (env.Now w2).1) ∧
      (withCondition g ProcessGroupConditionType.IncorrectConfigMap
        (env.Now w2).1).GetConditionTime ProcessGroupConditionType.IncorrectConfigMap =
          some (env.Now w2).1 ∧
      ∃ q, (updatePodConfig.reconcile env Status w).result = some q ∧
        q.delayedRequeue = false := by
  rw [reconcile_eq_finish env Status w w1 configMap pods hcm hpods, finish_Status, hsplit]
  have hbody := loopBody_pushed_notSynced env configMap _ g pod hash err w2 hp hres
  have hnot : ¬ (env.IsNetworkError err = true ∧
      g.GetConditionTime ProcessGroupConditionType.SidecarUnreachable = none) := by
    simp [hnet]
  have hns := notSynced_incorrect env (reach env configMap pods w1 pre) g pod err w2
    ((reach env configMap pods w1 pre).trace ++
      [Event.updatePodDynamicConf g.ProcessGroupID pod false err]) hnot hc
  refine ⟨?_, getConditionTime_withCondition_new g _ _ hc, ?_⟩
  · rw [loop_split_getElem]
    show some (loopBody env configMap (reach env configMap pods w1 pre) g).1 = _
    rw [hbody, hns.1]
  · apply finish_not_delayed
    · rw [loop_split]
      refine loop_preserves env configMap (fun v => v.allSynced = false)
        (fun v g1 hv => (flags_loopBody env configMap v g1).1 hv) post _ ?_
      show (loopBody env configMap (reach env configMap pods w1 pre) g).2.allSynced = false
      rw [hbody]; rfl
    · rw [loop_split]
      refine loop_preserves env configMap (fun v => v.delayedRequeue = false)
        (fun v g1 hv => (flags_loopBody env configMap v g1).2 hv) post _ ?_
      show (loopBody env configMap (reach env configMap pods w1 pre) g).2.delayedRequeue = false
      rw [hbody]; exact hns.2

/-- Witness for C3: `storage-2` carries a stale hash and its sidecar
answers "config not ready"; the pass starts at time 100. -/
theorem reconcile_incorrectConfigMap_witness :
    (updatePodConfig.reconcile
        (Fixture.env Fixture.twoPods (fun _ => (false, some Fixture.notReady)) false)
        { ProcessGroups := [Fixture.group "storage-1" [], Fixture.group "storage-2" []] }
        100).Status.ProcessGroups[1]? =
      some (Fixture.group "storage-2"
        [{ ProcessGroupConditionType := ProcessGroupConditionType.IncorrectConfigMap,
           Timestamp := 100 }]) ∧
    ∃ q, (updatePodConfig.reconcile
        (Fixture.env Fixture.twoPods (fun _ => (false, some Fixture.notReady)) false)
        { ProcessGroups := [Fixture.group "storage-1" [], Fixture.group "storage-2" []] }
        100).result = some q ∧ q.delayedRequeue = false :=
  have h := reconcile_incorrectConfigMap
    (Fixture.env Fixture.twoPods (fun _ => (false, some Fixture.notReady)) false)
    { ProcessGroups := [Fixture.group "storage-1" [], Fixture.group "storage-2" []] }
    100 100 100 () Fixture.twoPods [Fixture.group "storage-1" []] []
    (Fixture.group "storage-2" []) (Fixture.pod "storage-2" (some "h0") none) "h1"
    (some Fixture.notReady) rfl rfl rfl
    ⟨rfl, rfl, by decide, rfl, by decide⟩ rfl (by decide) rfl
  ⟨h.1, h.2.2⟩

/-- C4: when the iteration for a process group gets to the push and the push
does not sync, then (first) if the error is a network error and the group has
no `SidecarUnreachable` condition, the group after the pass is the group
before it with exactly one more condition, `SidecarUnreachable`, observed at
the time of the failure, and its `IncorrectConfigMap` time is what it was;
(second) if the group already has `SidecarUnreachable`, observed at `t`, then
after the pass it still has it, observed at `t`. -/
theorem reconcile_sidecarUnreachable (env : Env σ C I) (Status : FoundationDBClusterStatus)
    (w w1 w2 : σ) (configMap : C) (pods : List Pod) (pre post : List ProcessGroupStatus)
    (g : ProcessGroupStatus) (pod : Pod) (hash : String) (err : Option GoError)
    (hcm : env.GetConfigMap = .ok configMap) (hpods : env.GetPods w = (.ok pods, w1))
    (hsplit : Status.ProcessGroups = pre ++ g :: post)
    (hp : Pushed env configMap (reach env configMap pods w1 pre) g pod hash)
    (hres : env.updatePodDynamicConf pod (reach env configMap pods w1 pre).world =
      ((false, err), w2)) :
    (env.IsNetworkError err = true →
      g.GetConditionTime ProcessGroupConditionType.SidecarUnreachable = none →
        (updatePodConfig.reconcile env Status w).Status.ProcessGroups[pre.length]? =
          some (withCondition g ProcessGroupConditionType.SidecarUnreachable (env.Now w2).1) ∧
        (withCondition g ProcessGroupConditionType.SidecarUnreachable
          (env.Now w2).1).GetConditionTime ProcessGroupConditionType.SidecarUnreachable =
            some (env.Now w2).1 ∧
        (withCondition g ProcessGroupConditionType.SidecarUnreachable
          (env.Now w2).1).GetConditionTime ProcessGroupConditionType.IncorrectConfigMap =
            g.GetConditionTime ProcessGroupConditionType.IncorrectConfigMap) ∧
    (∀ t : Int, g.GetConditionTime ProcessGroupConditionType.SidecarUnreachable = some t →
      ∃ g1, (updatePodConfig.reconcile env Status w).Status.ProcessGroups[pre.length]? =
          some g1 ∧
        g1.GetConditionTime ProcessGroupConditionType.SidecarUnreachable = some t) := by
  rw [reconcile_eq_finish env Status w w1 configMap pods hcm hpods, finish_Status, hsplit]
  have hbody := loopBody_pushed_notSynced env configMap _ g pod hash err w2 hp hres
  have hget : (loop env configMap (pre ++ g :: post)
      (initVars (env.CreatePodMap pods) w1)).1[pre.length]? =
      some (notSynced env (reach env configMap pods w1 pre) g pod err w2
        ((reach env configMap pods w1 pre).trace ++
          [Event.updatePodDynamicConf g.ProcessGroupID pod false err])).1 := by
    rw [loop_split_getElem]
    show some (loopBody env configMap (reach env configMap pods w1 pre) g).1 = _
    rw [hbody]
  constructor
  · intro hnet hc
    refine ⟨?_, getConditionTime_withCondition_new g _ _ hc,
      getConditionTime_withCondition_other g _ _ _ (by decide)⟩
    simp only [hget]
    rw [(notSynced_sidecar env _ g pod err w2 _ hnet hc).1]
  · intro t ht
    refine ⟨_, hget, ?_⟩
    have hnot : ¬ (env.IsNetworkError err = true ∧
        g.GetConditionTime ProcessGroupConditionType.SidecarUnreachable = none) := by
      simp [ht]
    by_cases hc : g.GetConditionTime ProcessGroupConditionType.IncorrectConfigMap = none
    · rw [(notSynced_incorrect env _ g pod err w2 _ hnot hc).1,
        getConditionTime_withCondition_other g _ _ _ (by decide)]
      exact ht
    · rw [(notSynced_neither env _ g pod err w2 _ hnot hc).1]
      exact ht

/-- Witness for C4: the sidecar of `storage-2` cannot be reached.  The first
pass, at time 100, adds `SidecarUnreachable`; a later pass, at time 200, on
the group and the pod as the first pass left them, keeps the time 100. -/
theorem reconcile_sidecarUnreachable_witness :
    (updatePodConfig.reconcile
        (Fixture.env Fixture.twoPods (fun _ => (false, some Fixture.netErr)) false)
        { ProcessGroups := [Fixture.group "storage-1" [], Fixture.group "storage-2" []] }
        100).Status.ProcessGroups[1]? =
      some (Fixture.group "storage-2"
        [{ ProcessGroupConditionType := ProcessGroupConditionType.SidecarUnreachable,
           Timestamp := 100 }]) ∧
    ∃ g1, (updatePodConfig.reconcile
        (Fixture.env [Fixture.pod "storage-2" (some "h0") (some "101")]
          (fun _ => (false, some Fixture.netErr)) false)
        { ProcessGroups := [Fixture.group "storage-2"
            [{ ProcessGroupConditionType := ProcessGroupConditionType.SidecarUnreachable,
               Timestamp := 100 }]] }
        200).Status.ProcessGroups[0]? = some g1 ∧
      g1.GetConditionTime ProcessGroupConditionType.SidecarUnreachable = some 100 :=
  ⟨((reconcile_sidecarUnreachable
      (Fixture.env Fixture.twoPods (fun _ => (false, some Fixture.netErr)) false)
      { ProcessGroups := [Fixture.group "storage-1" [], Fixture.group "storage-2" []] }
      100 100 100 () Fixture.twoPods [Fixture.group "storage-1" []] []
      (Fixture.group "storage-2" []) (Fixture.pod "storage-2" (some "h0") none) "h1"
      (some Fixture.netErr) rfl rfl rfl
      ⟨rfl, rfl, by decide, rfl, by decide⟩ rfl).1 (by decide) rfl).1,
   (reconcile_sidecarUnreachable
      (Fixture.env [Fixture.pod "storage-2" (some "h0") (some "101")]
        (fun _ => (false, some Fixture.netErr)) false)
      { ProcessGroups := [Fixture.group "storage-2"
          [{ ProcessGroupConditionType := ProcessGroupConditionType.SidecarUnreachable,
             Timestamp := 100 }]] }
      200 200 200 () [Fixture.pod "storage-2" (some "h0") (some "101")] [] []
      (Fixture.group "storage-2"
        [{ ProcessGroupConditionType := ProcessGroupConditionType.SidecarUnreachable,
           Timestamp := 100 }])
      (Fixture.pod "storage-2" (some "h0") (some "101")) "h1"
      (some Fixture.netErr) rfl rfl rfl
      ⟨rfl, rfl, by decide, rfl, by decide⟩ rfl).2 100 rfl⟩

/-- C5, the code at the failing input: the only push that does not sync is a
network failure on a group that has `SidecarUnreachable`, no per-group error
is collected, and the pass still returns `delayedRequeue = false`, having
added `IncorrectConfigMap` to the unreachable group. -/
theorem unreachableAgain_forces_retry :
    unreachableAgain.result =
      some { curError := none
             message := "Waiting for Pod to receive ConfigMap update"
             delay := 15
             delayedRequeue := false } ∧
    unreachableAgain.Status.ProcessGroups =
      [Fixture.group "storage-2"
        [{ ProcessGroupConditionType := ProcessGroupConditionType.SidecarUnreachable,
           Timestamp := 100 },
         { ProcessGroupConditionType := ProcessGroupConditionType.IncorrectConfigMap,
           Timestamp := 200 }]] ∧
    unreachableAgain.trace.filter Event.isUnsyncedPush =
      [Event.updatePodDynamicConf "storage-2"
        (Fixture.pod "storage-2" (some "h0") (some "101")) false (some Fixture.netErr)] := by
  decide

/-- C6, counterexample: the push for `storage-1` succeeds, and after the pass
the pod still carries its `OutdatedConfigMapKey` annotation. -/
theorem syncedDuringUpgrade_keeps_marker :
    syncedDuringUpgrade.trace =
      [Event.updatePodDynamicConf "storage-1"
        (Fixture.pod "storage-1" (some "h1") (some "90")) true none] ∧
    syncedDuringUpgrade.podMap "storage-1" =
      some (Fixture.pod "storage-1" (some "h1") (some "90")) ∧
    ¬ ((syncedDuringUpgrade.podMap "storage-1").map
      (fun p => p.Annotations.OutdatedConfigMapKey) = some none) := by
  decide

/-- C6, amended: when the iteration for a process group gets to the push and
the push syncs, and no later entry of the list has the same ID, then after
the pass `SidecarUnreachable` is cleared on the group and the pod's
`LastConfigMapKey` annotation is the hash; if that annotation differed from
the hash before, the pod is the old pod with the annotation set to the hash
and `OutdatedConfigMapKey` removed; if it was the hash already, the pod is
left as it was. -/
theorem reconcile_synced (env : Env σ C I) (Status : FoundationDBClusterStatus)
    (w w1 w2 : σ) (configMap : C) (pods : List Pod) (pre post : List ProcessGroupStatus)
    (g : ProcessGroupStatus) (pod : Pod) (hash : String) (err : Option GoError)
    (hcm : env.GetConfigMap = .ok configMap) (hpods : env.GetPods w = (.ok pods, w1))
    (hsplit : Status.ProcessGroups = pre ++ g :: post)
    (hlater : ∀ g1 ∈ post, g1.ProcessGroupID ≠ g.ProcessGroupID)
    (hp : Pushed env configMap (reach env configMap pods w1 pre) g pod hash)
    (hres : env.updatePodDynamicConf pod (reach env configMap pods w1 pre).world =
      ((true, err), w2)) :
    (updatePodConfig.reconcile env Status w).Status.ProcessGroups[pre.length]? =
        some (clearSidecarUnreachable g) ∧
      (clearSidecarUnreachable g).GetConditionTime
        ProcessGroupConditionType.SidecarUnreachable = none ∧
      (∃ pod1, (updatePodConfig.reconcile env Status w).podMap g.ProcessGroupID = some pod1 ∧
        pod1.Annotations.LastConfigMapKey.getD "" = hash) ∧
      (pod.Annotations.LastConfigMapKey.getD "" ≠ hash →
        (updatePodConfig.reconcile env Status w).podMap g.ProcessGroupID =
          some { pod with Annotations :=
            { pod.Annotations with
                LastConfigMapKey := some hash, OutdatedConfigMapKey := none } }) ∧
      (pod.Annotations.LastConfigMapKey.getD "" = hash →
        (updatePodConfig.reconcile env Status w).podMap g.ProcessGroupID = some pod) := by
  rw [reconcile_eq_finish env Status w w1 configMap pods hcm hpods, finish_Status,
    finish_podMap, hsplit]
  have hbody := loopBody_pushed_synced env configMap _ g pod hash err w2 hp hres
  have hpm : (loop env configMap (pre ++ g :: post)
      (initVars (env.CreatePodMap pods) w1)).2.podMap g.ProcessGroupID =
      (synced env (reach env configMap pods w1 pre) g pod hash w2
        ((reach env configMap pods w1 pre).trace ++
          [Event.updatePodDynamicConf g.ProcessGroupID pod true err])).2.podMap
        g.ProcessGroupID := by
    rw [loop_split]
    simp only
    rw [loop_podMap_other env configMap g.ProcessGroupID post hlater]
    show (loopBody env configMap (reach env configMap pods w1 pre) g).2.podMap _ = _
    rw [hbody]
  have hchanged : pod.Annotations.LastConfigMapKey.getD "" ≠ hash →
      (loop env configMap (pre ++ g :: post)
        (initVars (env.CreatePodMap pods) w1)).2.podMap g.ProcessGroupID =
      some (podSynced pod hash) := by
    intro hk
    rw [hpm, synced_changed env _ g pod hash _ _ hk]
    exact setPod_self _ _ _
  have hsame : pod.Annotations.LastConfigMapKey.getD "" = hash →
      (loop env configMap (pre ++ g :: post)
        (initVars (env.CreatePodMap pods) w1)).2.podMap g.ProcessGroupID = some pod := by
    intro hk
    rw [hpm, synced_same env _ g pod hash _ _ hk]
    exact hp.2.2.1
  refine ⟨?_, getConditionTime_clearSidecarUnreachable g, ?_, hchanged, hsame⟩
  · rw [loop_split_getElem]
    show some (loopBody env configMap (reach env configMap pods w1 pre) g).1 = _
    rw [hbody]
    by_cases hk : pod.Annotations.LastConfigMapKey.getD "" = hash
    · rw [synced_same env _ g pod hash _ _ hk]
    · rw [synced_changed env _ g pod hash _ _ hk]
  · by_cases hk : pod.Annotations.LastConfigMapKey.getD "" = hash
    · exact ⟨pod, hsame hk, hk⟩
    · exact ⟨podSynced pod hash, hchanged hk, rfl⟩

/-- Witness for C6, amended: the sidecar of `storage-2`, which carries a
stale hash, an outdated marker and `SidecarUnreachable`, applies the files. -/
theorem reconcile_synced_witness :
    (updatePodConfig.reconcile
        (Fixture.env [Fixture.pod "storage-2" (some "h0") (some "101")]
          (fun _ => (true, none)) false)
        { ProcessGroups := [Fixture.group "storage-2"
            [{ ProcessGroupConditionType := ProcessGroupConditionType.SidecarUnreachable,
               Timestamp := 100 }]] }
        200).Status.ProcessGroups[0]? = some (Fixture.group "storage-2" []) ∧
    (updatePodConfig.reconcile
        (Fixture.env [Fixture.pod "storage-2" (some "h0") (some "101")]
          (fun _ => (true, none)) false)
        { ProcessGroups := [Fixture.group "storage-2"
            [{ ProcessGroupConditionType := ProcessGroupConditionType.SidecarUnreachable,
               Timestamp := 100 }]] }
        200).podMap "storage-2" = some (Fixture.pod "storage-2" (some "h1") none) :=
  have h := reconcile_synced
    (Fixture.env [Fixture.pod "storage-2" (some "h0") (some "101")]
      (fun _ => (true, none)) false)
    { ProcessGroups := [Fixture.group "storage-2"
        [{ ProcessGroupConditionType := ProcessGroupConditionType.SidecarUnreachable,
           Timestamp := 100 }]] }
    200 200 200 () [Fixture.pod "storage-2" (some "h0") (some "101")] [] []
    (Fixture.group "storage-2"
      [{ ProcessGroupConditionType := ProcessGroupConditionType.SidecarUnreachable,
         Timestamp := 100 }])
    (Fixture.pod "storage-2" (some "h0") (some "101")) "h1" none rfl rfl rfl
    (by simp) ⟨rfl, rfl, by decide, rfl, by decide⟩ rfl
  ⟨h.1, h.2.2.2.1 (by decide)⟩

/-- C7: when the iteration for a process group finds its pod and one of the
three resolution calls fails, the iteration returns the group as it was and
only adds the error to `errs` (pods, world and trace are as before: no push,
no metadata update); the pass leaves every other group, every pod and every
push and metadata update exactly as the pass over the list without that group
does; and, unless a status write fails, the pass returns the message-only
signal "errors occurred during update pod config reconcile", with no error
in it. -/
theorem reconcile_resolution_failure (env : Env σ C I) (Status : FoundationDBClusterStatus)
    (w w1 : σ) (configMap : C) (pods : List Pod) (pre post : List ProcessGroupStatus)
    (g : ProcessGroupStatus) (pod : Pod) (err : GoError)
    (hcm : env.GetConfigMap = .ok configMap) (hpods : env.GetPods w = (.ok pods, w1))
    (hsplit : Status.ProcessGroups = pre ++ g :: post)
    (hr : g.IsMarkedForRemoval = false) (hsk : env.SkipProcessGroup g = false)
    (hpod : (reach env configMap pods w1 pre).podMap g.ProcessGroupID = some pod)
    (hfail : resolveHash env configMap pod = .error err) :
    loopBody env configMap (reach env configMap pods w1 pre) g =
        (g, { reach env configMap pods w1 pre with
                errs := (reach env configMap pods w1 pre).errs ++ [err] }) ∧
      (updatePodConfig.reconcile env Status w).Status.ProcessGroups =
        (updatePodConfig.reconcile env { ProcessGroups := pre ++ post }
            w).Status.ProcessGroups.take pre.length ++
          g :: (updatePodConfig.reconcile env { ProcessGroups := pre ++ post }
            w).Status.ProcessGroups.drop pre.length ∧
      (updatePodConfig.reconcile env Status w).podMap =
        (updatePodConfig.reconcile env { ProcessGroups := pre ++ post } w).podMap ∧
      (updatePodConfig.reconcile env Status w).trace.filter (fun e => !e.isStatusWrite) =
        (updatePodConfig.reconcile env { ProcessGroups := pre ++ post } w).trace.filter
          (fun e => !e.isStatusWrite) ∧
      ((∀ e ∈ (updatePodConfig.reconcile env Status w).trace,
          e.isFailedStatusWrite = false) →
        (updatePodConfig.reconcile env Status w).result =
          some { curError := none
                 message := "errors occurred during update pod config reconcile"
                 delay := 0
                 delayedRequeue := false }) := by
  have hbody := loopBody_resolveError env configMap (reach env configMap pods w1 pre) g pod err
    hr hsk hpod hfail
  have hagree := loop_agree env configMap post
    { reach env configMap pods w1 pre with
        errs := (reach env configMap pods w1 pre).errs ++ [err] }
    (reach env configMap pods w1 pre) ⟨rfl, rfl, rfl, rfl, rfl⟩
  have hwith : loop env configMap (pre ++ g :: post) (initVars (env.CreatePodMap pods) w1) =
      ((loop env configMap pre (initVars (env.CreatePodMap pods) w1)).1 ++
          g :: (loop env configMap post
            { reach env configMap pods w1 pre with
                errs := (reach env configMap pods w1 pre).errs ++ [err] }).1,
        (loop env configMap post
            { reach env configMap pods w1 pre with
                errs := (reach env configMap pods w1 pre).errs ++ [err] }).2) := by
    rw [loop_split]
    show (_ ++ (loopBody env configMap (reach env configMap pods w1 pre) g).1 ::
        (loop env configMap post
          (loopBody env configMap (reach env configMap pods w1 pre) g).2).1,
      (loop env configMap post
          (loopBody env configMap (reach env configMap pods w1 pre) g).2).2) = _
    rw [hbody]
  have hwithout : loop env configMap (pre ++ post) (initVars (env.CreatePodMap pods) w1) =
      ((loop env configMap pre (initVars (env.CreatePodMap pods) w1)).1 ++
          (loop env configMap post (reach env configMap pods w1 pre)).1,
        (loop env configMap post (reach env configMap pods w1 pre)).2) :=
    loop_append env configMap pre post _
  have hlen := loop_length env configMap pre (initVars (env.CreatePodMap pods) w1)
  refine ⟨hbody, ?_, ?_, ?_, ?_⟩
  · rw [reconcile_eq_finish env Status w w1 configMap pods hcm hpods,
      reconcile_eq_finish env { ProcessGroups := pre ++ post } w w1 configMap pods hcm hpods,
      finish_Status, finish_Status, hsplit]
    simp only [hwith, hwithout, hagree.1]
    rw [List.take_left' hlen, List.drop_left' hlen]
  · rw [reconcile_eq_finish env Status w w1 configMap pods hcm hpods,
      reconcile_eq_finish env { ProcessGroups := pre ++ post } w w1 configMap pods hcm hpods,
      finish_podMap, finish_podMap, hsplit]
    simp only [hwith, hwithout]
    exact hagree.2.2.2.1
  · rw [reconcile_eq_finish env Status w w1 configMap pods hcm hpods,
      reconcile_eq_finish env { ProcessGroups := pre ++ post } w w1 configMap pods hcm hpods,
      finish_trace_filter, finish_trace_filter, hsplit]
    simp only [hwith, hwithout]
    rw [hagree.2.2.2.2.2]
  · intro hwrite
    rw [reconcile_eq_finish env Status w w1 configMap pods hcm hpods] at hwrite ⊢
    rw [finish_result env Status _ _ hwrite]
    apply aggregate_errs
    rw [hsplit, hwith]
    exact loop_preserves env configMap (fun v => v.errs ≠ [])
      (fun v g1 hv => errs_loopBody env configMap v g1 hv) post _ (by simp)

/-- Witness for C7: the pod of `broken` cannot be resolved; `storage-2`,
after it in the list, carries a stale hash and its push does not sync. -/
theorem reconcile_resolution_failure_witness :
    (updatePodConfig.reconcile
        (Fixture.env [Fixture.pod "broken" none none, Fixture.pod "storage-2" (some "h0") none]
          (fun _ => (false, some Fixture.notReady)) false)
        { ProcessGroups := [Fixture.group "broken" [], Fixture.group "storage-2" []] }
        100).Status.ProcessGroups =
      [Fixture.group "broken" [],
        Fixture.group "storage-2"
          [{ ProcessGroupConditionType := ProcessGroupConditionType.IncorrectConfigMap,
             Timestamp := 100 }]] ∧
    (updatePodConfig.reconcile
        (Fixture.env [Fixture.pod "broken" none none, Fixture.pod "storage-2" (some "h0") none]
          (fun _ => (false, some Fixture.notReady)) false)
        { ProcessGroups := [Fixture.group "broken" [], Fixture.group "storage-2" []] }
        100).result =
      some { curError := none
             message := "errors occurred during update pod config reconcile"
             delay := 0
             delayedRequeue := false } :=
  have h := reconcile_resolution_failure
    (Fixture.env [Fixture.pod "broken" none none, Fixture.pod "storage-2" (some "h0") none]
      (fun _ => (false, some Fixture.notReady)) false)
    { ProcessGroups := [Fixture.group "broken" [], Fixture.group "storage-2" []] }
    100 100 () [Fixture.pod "broken" none none, Fixture.pod "storage-2" (some "h0") none]
    [] [Fixture.group "storage-2" []] (Fixture.group "broken" [])
    (Fixture.pod "broken" none none) Fixture.badPod rfl rfl rfl rfl rfl (by decide) rfl
  ⟨h.2.1.trans (by decide), h.2.2.2.2 (by decide)⟩

end Claims

namespace chooseRemovals

/-! ## Lemmas on the Removal Selector -/

theorem pick_eq_none (m : List ProcessGroup) :
    ∀ l : List ProcessGroup, pick m l = none ↔ l = [] := by
  intro l
  cases l with
  | nil => simp [pick]
  | cons g rest =>
    simp only [pick]
    cases pick m rest with
    | none => simp
    | some b => by_cases hb : preferred m b g = true <;> simp [hb]

/-- The candidate that `pick` returns is one of the candidates, and no
candidate is preferred to it. -/
theorem pick_spec (m : List ProcessGroup) :
    ∀ (l : List ProcessGroup) (g : ProcessGroup), pick m l = some g →
      g ∈ l ∧ ∀ h ∈ l, preferred m h g = false := by
  intro l
  induction l with
  | nil => intro g hg; simp [pick] at hg
  | cons x rest ih =>
    intro g hg
    simp only [pick] at hg
    cases hp : pick m rest with
    | none =>
      rw [hp] at hg
      simp only [Option.some.injEq] at hg
      subst hg
      have hrest : rest = [] := (pick_eq_none m rest).mp hp
      subst hrest
      refine ⟨List.mem_cons_self _ _, ?_⟩
      intro h hh
      simp only [List.mem_singleton] at hh
      subst hh
      simp [preferred]
    | some b =>
      rw [hp] at hg
      obtain ⟨hb, hmax⟩ := ih b hp
      by_cases hpr : preferred m b x = true
      · dsimp only at hg
        rw [if_pos hpr] at hg
        simp only [Option.some.injEq] at hg
        subst hg
        refine ⟨List.mem_cons_of_mem _ hb, ?_⟩
        intro h hh
        rcases List.mem_cons.mp hh with rfl | hh
        · simp only [preferred, decide_eq_true_eq] at hpr
          simp only [preferred, decide_eq_false_iff_not]
          omega
        · exact hmax h hh
      · dsimp only at hg
        rw [if_neg hpr] at hg
        simp only [Option.some.injEq] at hg
        subst hg
        refine ⟨List.mem_cons_self _ _, ?_⟩
        intro h hh
        rcases List.mem_cons.mp hh with rfl | hh
        · simp [preferred]
        · have h1 := hmax h hh
          simp only [preferred, decide_eq_true_eq] at hpr
          simp only [preferred, decide_eq_false_iff_not] at h1 ⊢
          omega

theorem mem_pool {c : ProcessClass} {dir : List ProcessGroup} {g : ProcessGroup} :
    g ∈ pool c dir ↔ g ∈ dir ∧ g.processClass = c ∧ g.markedForRemoval = false := by
  simp [pool]

/-- Every pool member counts in the occupancy of its own zone. -/
theorem zoneOccupancy_pos (m : List ProcessGroup) (g : ProcessGroup) (hg : g ∈ m) :
    1 ≤ zoneOccupancy m g := by
  unfold zoneOccupancy
  cases hz : g.zone with
  | none => simp
  | some z =>
    simp only
    apply List.length_pos_of_mem (a := g)
    simp [hg, hz]

theorem marks_refl (a : ProcessGroup) : Marks a a := ⟨rfl, rfl, rfl, id⟩

theorem forall2_marks_refl : ∀ l : List ProcessGroup, List.Forall₂ Marks l l
  | [] => List.Forall₂.nil
  | a :: l => List.Forall₂.cons (marks_refl a) (forall2_marks_refl l)

theorem forall2_marks_trans :
    ∀ {a b c : List ProcessGroup}, List.Forall₂ Marks a b → List.Forall₂ Marks b c →
      List.Forall₂ Marks a c := by
  intro a b c hab
  induction hab generalizing c with
  | nil => intro hbc; cases hbc; exact List.Forall₂.nil
  | cons h _ ih =>
    intro hbc
    cases hbc with
    | cons h2 t2 =>
      exact List.Forall₂.cons
        ⟨h2.1.trans h.1, h2.2.1.trans h.2.1, h2.2.2.1.trans h.2.2.1,
          fun hm => h2.2.2.2 (h.2.2.2 hm)⟩ (ih t2)

theorem forall2_marks_markForRemoval (g : ProcessGroup) :
    ∀ dir : List ProcessGroup, List.Forall₂ Marks dir (markForRemoval g dir)
  | [] => List.Forall₂.nil
  | h :: rest => by
    simp only [markForRemoval, List.map_cons]
    refine List.Forall₂.cons ?_ (forall2_marks_markForRemoval g rest)
    by_cases hid : h.identity = g.identity
    · simp only [hid, if_true]
      exact ⟨rfl, rfl, rfl, fun _ => rfl⟩
    · simp only [hid, if_false]
      exact marks_refl h

theorem forall2_marks_removeFromClass (c : ProcessClass) :
    ∀ (n : Nat) (dir : List ProcessGroup), List.Forall₂ Marks dir (removeFromClass c n dir) := by
  intro n
  induction n with
  | zero => intro dir; exact forall2_marks_refl dir
  | succ n ih =>
    intro dir
    simp only [removeFromClass]
    cases pick (pool c dir) (pool c dir) with
    | none => exact forall2_marks_refl dir
    | some g => exact forall2_marks_trans (forall2_marks_markForRemoval g dir) (ih _)

theorem forall2_marks_foldl (t : ProcessClass → Nat) :
    ∀ (cs : List ProcessClass) (dir : List ProcessGroup),
      List.Forall₂ Marks dir (cs.foldl (fun d c => removeFromClass c (t c) d) dir) := by
  intro cs
  induction cs with
  | nil => intro dir; exact forall2_marks_refl dir
  | cons c rest ih =>
    intro dir
    simp only [List.foldl_cons]
    exact forall2_marks_trans (forall2_marks_removeFromClass c (t c) dir) (ih _)

theorem forall2_marks_selectRemovals (desired : ProcessClass → Option Nat)
    (dir : List ProcessGroup) : List.Forall₂ Marks dir (selectRemovals desired dir) :=
  forall2_marks_foldl (removalTarget desired dir) (classes dir) dir

/-- Flags that only go up keep every flagged identity flagged. -/
theorem removals_subset_of_marks :
    ∀ {a b : List ProcessGroup}, List.Forall₂ Marks a b → removals a ⊆ removals b := by
  intro a b hab
  induction hab with
  | nil => simp [removals]
  | @cons x y l1 l2 h _ ih =>
    intro i hi
    simp only [removals, List.mem_map, List.mem_filter, List.mem_cons] at hi ⊢
    obtain ⟨g, ⟨hg, hm⟩, hid⟩ := hi
    rcases hg with rfl | hg
    · refine ⟨y, ⟨Or.inl rfl, h.2.2.2 hm⟩, ?_⟩
      rw [← hid]
      simp [ProcessGroup.identity, h.1, h.2.1]
    · have : i ∈ removals l1 := by
        simp only [removals, List.mem_map, List.mem_filter]
        exact ⟨g, ⟨hg, hm⟩, hid⟩
      have h2 := ih this
      simp only [removals, List.mem_map, List.mem_filter] at h2
      obtain ⟨g2, ⟨hg2, hm2⟩, hid2⟩ := h2
      exact ⟨g2, ⟨Or.inr hg2, hm2⟩, hid2⟩

/-- With no class over its desired count, nothing is flagged. -/
theorem selectRemovals_reconciled (desired : ProcessClass → Option Nat)
    (dir : List ProcessGroup) (h : ∀ c, live c dir ≤ desiredCount desired c) :
    selectRemovals desired dir = dir := by
  have ht : ∀ c, removalTarget desired dir c = 0 := by
    intro c
    have := h c
    simp only [removalTarget]
    omega
  unfold selectRemovals
  generalize classes dir = cs
  have : ∀ d : List ProcessGroup,
      cs.foldl (fun d c => removeFromClass c (removalTarget desired dir c) d) d = d := by
    induction cs with
    | nil => intro d; rfl
    | cons c rest ih =>
      intro d
      simp only [List.foldl_cons, ht c, removeFromClass]
      exact ih d
  exact this dir


theorem markForRemoval_identity (g : ProcessGroup) (dir : List ProcessGroup) :
    (markForRemoval g dir).map ProcessGroup.identity = dir.map ProcessGroup.identity := by
  simp only [markForRemoval, List.map_map]
  apply List.map_congr_left
  intro h _
  by_cases hid : h.identity = g.identity
  · simp only [Function.comp, hid, if_true]
    rw [← hid]
    rfl
  · simp [hid]

theorem markForRemoval_of_absent (g : ProcessGroup) (l : List ProcessGroup)
    (h : ∀ x ∈ l, x.identity ≠ g.identity) : markForRemoval g l = l := by
  unfold markForRemoval
  conv_rhs => rw [← List.map_id l]
  apply List.map_congr_left
  intro x hx
  simp [h x hx]

theorem markForRemoval_filter_class (g : ProcessGroup) (c : ProcessClass)
    (dir : List ProcessGroup) :
    (markForRemoval g dir).filter (fun h => h.processClass = c) =
      markForRemoval g (dir.filter (fun h => h.processClass = c)) := by
  induction dir with
  | nil => rfl
  | cons x rest ih =>
    simp only [markForRemoval, List.map_cons] at ih ⊢
    by_cases hc : x.processClass = c
    · by_cases hid : x.identity = g.identity
      · simp [List.filter_cons, hc, hid, ih]
      · simp [List.filter_cons, hc, hid, ih]
    · by_cases hid : x.identity = g.identity
      · simp [List.filter_cons, hc, hid, ih]
      · simp [List.filter_cons, hc, hid, ih]

theorem pool_filter_class (c : ProcessClass) (dir : List ProcessGroup) :
    pool c (dir.filter (fun h => h.processClass = c)) = pool c dir := by
  simp only [pool, List.filter_filter]
  apply List.filter_congr
  intro x _
  by_cases hc : x.processClass = c <;> simp [hc]

/-- The groups of class `c` after the rounds for `c` depend only on the
groups of class `c`. -/
theorem removeFromClass_filter_same (c : ProcessClass) :
    ∀ (n : Nat) (dir : List ProcessGroup),
      (removeFromClass c n dir).filter (fun h => h.processClass = c) =
        removeFromClass c n (dir.filter (fun h => h.processClass = c)) := by
  intro n
  induction n with
  | zero => intro dir; rfl
  | succ n ih =>
    intro dir
    simp only [removeFromClass, pool_filter_class]
    cases pick (pool c dir) (pool c dir) with
    | none => rfl
    | some g =>
      simp only
      rw [ih, markForRemoval_filter_class]

/-- The rounds for class `c` leave the groups of every other class alone. -/
theorem removeFromClass_filter_other (c c1 : ProcessClass) (hne : c1 ≠ c) :
    ∀ (n : Nat) (dir : List ProcessGroup),
      (removeFromClass c n dir).filter (fun h => h.processClass = c1) =
        dir.filter (fun h => h.processClass = c1) := by
  intro n
  induction n with
  | zero => intro dir; rfl
  | succ n ih =>
    intro dir
    simp only [removeFromClass]
    cases hp : pick (pool c dir) (pool c dir) with
    | none => rfl
    | some g =>
      simp only
      have hg := (mem_pool.mp (pick_spec _ _ g hp).1).2.1
      rw [ih, markForRemoval_filter_class]
      apply markForRemoval_of_absent
      intro x hx hid
      have hx1 : x.processClass = c1 := by simpa using (List.mem_filter.mp hx).2
      have : x.processClass = g.processClass := congrArg Prod.fst hid
      exact hne (by rw [← hx1, this, hg])

/-- The groups of class `c` after all classes are done: the rounds for `c`
alone decide them. -/
theorem foldl_filter_class (t : ProcessClass → Nat) (c : ProcessClass) :
    ∀ (cs : List ProcessClass), cs.Nodup → ∀ dir : List ProcessGroup,
      (cs.foldl (fun d c0 => removeFromClass c0 (t c0) d) dir).filter
          (fun h => h.processClass = c) =
        if c ∈ cs then (removeFromClass c (t c) dir).filter (fun h => h.processClass = c)
        else dir.filter (fun h => h.processClass = c) := by
  intro cs
  induction cs with
  | nil => intro _ dir; simp
  | cons c0 rest ih =>
    intro hnd dir
    have hnd1 := List.nodup_cons.mp hnd
    simp only [List.foldl_cons]
    rw [ih hnd1.2]
    by_cases hc : c = c0
    · subst hc
      simp [hnd1.1]
    · have hc1 : c ∈ c0 :: rest ↔ c ∈ rest := by simp [hc]
      by_cases hr : c ∈ rest
      · rw [if_pos hr, if_pos (hc1.mpr hr), removeFromClass_filter_same,
          removeFromClass_filter_other c0 c hc, ← removeFromClass_filter_same]
      · rw [if_neg hr, if_neg (fun h => hr (hc1.mp h)),
          removeFromClass_filter_other c0 c hc]

theorem live_filter_class (c : ProcessClass) (dir : List ProcessGroup) :
    live c (dir.filter (fun h => h.processClass = c)) = live c dir := by
  simp [live, pool_filter_class]

theorem marked_filter_class (c : ProcessClass) (dir : List ProcessGroup) :
    marked c (dir.filter (fun h => h.processClass = c)) = marked c dir := by
  simp only [marked, List.filter_filter]
  congr 1
  apply List.filter_congr
  intro x _
  by_cases hc : x.processClass = c <;> simp [hc]

theorem live_cons (c : ProcessClass) (x : ProcessGroup) (l : List ProcessGroup) :
    live c (x :: l) =
      (if x.processClass = c ∧ x.markedForRemoval = false then 1 else 0) + live c l := by
  by_cases h : x.processClass = c ∧ x.markedForRemoval = false
  · simp [live, pool, List.filter_cons, h]; omega
  · simp [live, pool, List.filter_cons, h]

theorem marked_cons (c : ProcessClass) (x : ProcessGroup) (l : List ProcessGroup) :
    marked c (x :: l) =
      (if x.processClass = c ∧ x.markedForRemoval = true then 1 else 0) + marked c l := by
  by_cases h : x.processClass = c ∧ x.markedForRemoval = true
  · simp [marked, List.filter_cons, h]; omega
  · simp [marked, List.filter_cons, h]

/-- Flagging an unflagged group with a unique identity moves exactly one
group of its class from live to flagged. -/
theorem count_markForRemoval (g : ProcessGroup) :
    ∀ dir : List ProcessGroup, (dir.map ProcessGroup.identity).Nodup → g ∈ dir →
      g.markedForRemoval = false →
      live g.processClass (markForRemoval g dir) + 1 = live g.processClass dir ∧
        marked g.processClass (markForRemoval g dir) = marked g.processClass dir + 1 := by
  intro dir
  induction dir with
  | nil => intro _ hg; simp at hg
  | cons x rest ih =>
    intro hnd hg hm
    simp only [List.map_cons, List.nodup_cons] at hnd
    by_cases hid : x.identity = g.identity
    · have hgx : g = x := by
        rcases List.mem_cons.mp hg with h | h
        · exact h
        · exact absurd (hid ▸ List.mem_map_of_mem ProcessGroup.identity h) hnd.1
      subst hgx
      have habs : ∀ y ∈ rest, y.identity ≠ g.identity := by
        intro y hy h
        exact hnd.1 (h ▸ List.mem_map_of_mem ProcessGroup.identity hy)
      have hrest := markForRemoval_of_absent g rest habs
      have hcons : markForRemoval g (g :: rest) =
          { g with markedForRemoval := true } :: rest := by
        simp only [markForRemoval, List.map_cons, if_true] at hrest ⊢
        rw [hrest]
      rw [hcons, live_cons, live_cons, marked_cons, marked_cons]
      simp [hm]
      omega
    · have hg1 : g ∈ rest := by
        rcases List.mem_cons.mp hg with h | h
        · exact absurd (h ▸ rfl) hid
        · exact h
      have hcons : markForRemoval g (x :: rest) = x :: markForRemoval g rest := by
        simp [markForRemoval, hid]
      obtain ⟨h1, h2⟩ := ih hnd.2 hg1 hm
      rw [hcons, live_cons, live_cons, marked_cons, marked_cons]
      omega

/-- The rounds for a class flag as many of its groups as asked for, as long
as there are live ones. -/
theorem count_removeFromClass (c : ProcessClass) :
    ∀ (n : Nat) (dir : List ProcessGroup), (dir.map ProcessGroup.identity).Nodup →
      live c (removeFromClass c n dir) = live c dir - n ∧
        marked c (removeFromClass c n dir) = marked c dir + min n (live c dir) := by
  intro n
  induction n with
  | zero => intro dir _; simp [removeFromClass]
  | succ n ih =>
    intro dir hnd
    simp only [removeFromClass]
    cases hp : pick (pool c dir) (pool c dir) with
    | none =>
      have h0 : live c dir = 0 := by
        simp [live, (pick_eq_none _ _).mp hp]
      simp [h0]
    | some g =>
      simp only
      obtain ⟨hgd, hgc, hgm⟩ := mem_pool.mp (pick_spec _ _ g hp).1
      have hcount := count_markForRemoval g dir hnd hgd hgm
      rw [hgc] at hcount
      have hnd1 : ((markForRemoval g dir).map ProcessGroup.identity).Nodup := by
        rw [markForRemoval_identity]; exact hnd
      obtain ⟨h1, h2⟩ := ih (markForRemoval g dir) hnd1
      obtain ⟨h3, h4⟩ := hcount
      rw [h1, h2, h4]
      constructor
      · omega
      · omega

theorem nodup_classes (dir : List ProcessGroup) : (classes dir).Nodup :=
  List.nodup_dedup _

theorem mem_classes {c : ProcessClass} {dir : List ProcessGroup} :
    c ∈ classes dir ↔ ∃ g ∈ dir, g.processClass = c := by
  simp [classes]

theorem live_eq_zero_of_not_mem_classes (c : ProcessClass) (dir : List ProcessGroup)
    (h : c ∉ classes dir) : live c dir = 0 := by
  have : pool c dir = [] := by
    simp only [pool, List.filter_eq_nil_iff]
    intro g hg
    have hc : g.processClass ≠ c := fun hc => h (mem_classes.mpr ⟨g, hg, hc⟩)
    simp [hc]
  simp [live, this]

/-- The groups of class `c` after the pass. -/
theorem selectRemovals_filter_class (desired : ProcessClass → Option Nat)
    (dir : List ProcessGroup) (c : ProcessClass) :
    (selectRemovals desired dir).filter (fun h => h.processClass = c) =
      if c ∈ classes dir then
        (removeFromClass c (removalTarget desired dir c) dir).filter
          (fun h => h.processClass = c)
      else dir.filter (fun h => h.processClass = c) :=
  foldl_filter_class (removalTarget desired dir) c (classes dir) (nodup_classes dir) dir

/-! ## Theorems on the Removal Selector -/

/-- C8: with unique identities, for every class the pass flags exactly
`live - desired` more groups of the class (truncated subtraction, so none
when `live ≤ desired`; an absent desired count is zero), and leaves `live`
less that many unflagged; between the directory before and after, entry by
entry, nothing but the flag differs and no flag is taken away, so only groups
that were unflagged get flagged; when no class is over its desired count the
directory is unchanged; and the returned signal is always nil. -/
theorem reconcile_marks_excess (desired : ProcessClass → Option Nat)
    (dir : List ProcessGroup) (hnd : (dir.map ProcessGroup.identity).Nodup)
    (c : ProcessClass) :
    marked c (reconcile desired dir).2 =
        marked c dir + (live c dir - desiredCount desired c) ∧
      live c (reconcile desired dir).2 =
        live c dir - (live c dir - desiredCount desired c) ∧
      List.Forall₂ Marks dir (reconcile desired dir).2 ∧
      ((∀ c1, live c1 dir ≤ desiredCount desired c1) → (reconcile desired dir).2 = dir) ∧
      (reconcile desired dir).1 = none := by
  refine ⟨?_, ?_, forall2_marks_selectRemovals desired dir,
    selectRemovals_reconciled desired dir, rfl⟩
  · show marked c (selectRemovals desired dir) = _
    rw [← marked_filter_class, selectRemovals_filter_class]
    by_cases hc : c ∈ classes dir
    · rw [if_pos hc, marked_filter_class,
        (count_removeFromClass c (removalTarget desired dir c) dir hnd).2]
      simp only [removalTarget]
      omega
    · rw [if_neg hc, marked_filter_class, live_eq_zero_of_not_mem_classes c dir hc]
      simp
  · show live c (selectRemovals desired dir) = _
    rw [← live_filter_class, selectRemovals_filter_class]
    by_cases hc : c ∈ classes dir
    · rw [if_pos hc, live_filter_class,
        (count_removeFromClass c (removalTarget desired dir c) dir hnd).1]
      rfl
    · rw [if_neg hc, live_filter_class, live_eq_zero_of_not_mem_classes c dir hc]
      simp

/-- Witness for C8: the default cluster with the storage count lowered to 3
and the cluster-controller count to 0; one storage group and the one cluster
controller get flagged in the same pass. -/
theorem reconcile_marks_excess_witness :
    (marked ProcessClass.storage
        (reconcile (Fixture.counts 3 0) Fixture.directory).2 = 0 + (4 - 3) ∧
      marked ProcessClass.cluster_controller
        (reconcile (Fixture.counts 3 0) Fixture.directory).2 = 0 + (1 - 0)) ∧
    removals (reconcile (Fixture.counts 3 0) Fixture.directory).2 =
      [(ProcessClass.cluster_controller, 1), (ProcessClass.storage, 4)] :=
  ⟨⟨(reconcile_marks_excess (Fixture.counts 3 0) Fixture.directory (by decide)
        ProcessClass.storage).1,
    (reconcile_marks_excess (Fixture.counts 3 0) Fixture.directory (by decide)
        ProcessClass.cluster_controller).1⟩, by decide⟩

/-- C9: the pass never takes a flag away: entry by entry, the directory after
the pass differs from the one before in nothing but flags that went up, so
every identity flagged before is flagged after; when no class has more
unflagged groups than desired, the flagged identities are the same; four
storage groups with `storage-2` flagged and a desired count of 3 end with
exactly `storage-2` flagged. -/
theorem reconcile_never_unmarks (desired : ProcessClass → Option Nat)
    (dir : List ProcessGroup) :
    List.Forall₂ Marks dir (reconcile desired dir).2 ∧
      removals dir ⊆ removals (reconcile desired dir).2 ∧
      ((∀ c, live c dir ≤ desiredCount desired c) →
        removals (reconcile desired dir).2 = removals dir) ∧
      removals (reconcile (Fixture.counts 3 1) Fixture.directoryMarked).2 =
        [(ProcessClass.storage, 2)] := by
  refine ⟨forall2_marks_selectRemovals desired dir,
    removals_subset_of_marks (forall2_marks_selectRemovals desired dir), ?_, by decide⟩
  intro h
  show removals (selectRemovals desired dir) = _
  rw [selectRemovals_reconciled desired dir h]

/-- C10: when the target of a class is one removal, the group that gets
flagged is a group `g` of the class's pool such that no pool member is in a
more occupied zone, no pool member in an equally occupied zone (its own zone
included) has a higher ordinal, `g` shares its zone as soon as any pool member
shares one, and `g` has the highest ordinal of the pool when no zone holds
more than one member; the groups of the class after the pass are those of the
directory with `g` flagged.  The result is a function of the desired counts
and of the class, ordinal, flag and zone label of each group. -/
theorem reconcile_marks_one (desired : ProcessClass → Option Nat) (dir : List ProcessGroup)
    (c : ProcessClass) (h1 : removalTarget desired dir c = 1) :
    ∃ g, g ∈ pool c dir ∧
      (∀ h ∈ pool c dir, zoneOccupancy (pool c dir) h ≤ zoneOccupancy (pool c dir) g) ∧
      (∀ h ∈ pool c dir, zoneOccupancy (pool c dir) h = zoneOccupancy (pool c dir) g →
        h.ordinal ≤ g.ordinal) ∧
      ((∃ h ∈ pool c dir, 1 < zoneOccupancy (pool c dir) h) →
        1 < zoneOccupancy (pool c dir) g) ∧
      ((∀ h ∈ pool c dir, zoneOccupancy (pool c dir) h ≤ 1) →
        ∀ h ∈ pool c dir, h.ordinal ≤ g.ordinal) ∧
      (reconcile desired dir).2.filter (fun h => h.processClass = c) =
        (markForRemoval g dir).filter (fun h => h.processClass = c) := by
  have hlive : 0 < live c dir := by
    simp only [removalTarget] at h1
    omega
  have hne : pool c dir ≠ [] := by
    intro h0
    simp [live, h0] at hlive
  cases hp : pick (pool c dir) (pool c dir) with
  | none => exact absurd ((pick_eq_none _ _).mp hp) hne
  | some g =>
    obtain ⟨hg, hmax⟩ := pick_spec _ _ g hp
    have hle : ∀ h ∈ pool c dir,
        zoneOccupancy (pool c dir) h < zoneOccupancy (pool c dir) g ∨
          (zoneOccupancy (pool c dir) h = zoneOccupancy (pool c dir) g ∧
            h.ordinal ≤ g.ordinal) := by
      intro h hh
      have := hmax h hh
      simp only [preferred, decide_eq_false_iff_not] at this
      omega
    refine ⟨g, hg, ?_, ?_, ?_, ?_, ?_⟩
    · intro h hh
      have := hle h hh
      omega
    · intro h hh heq
      have := hle h hh
      omega
    · rintro ⟨h, hh, hocc⟩
      have := hle h hh
      omega
    · intro hall h hh
      have h2 := hle h hh
      have h3 := zoneOccupancy_pos (pool c dir) h hh
      have h4 := hall g hg
      omega
    · have hc : c ∈ classes dir :=
        mem_classes.mpr ⟨g, (mem_pool.mp hg).1, (mem_pool.mp hg).2.1⟩
      show (selectRemovals desired dir).filter _ = _
      rw [selectRemovals_filter_class, if_pos hc, h1]
      simp [removeFromClass, hp]

/-- Witness for C10: with `storage-1` and `storage-2` in zone `r1` and the
storage count lowered to 3, `storage-2` gets flagged; with no two groups in
one zone, `storage-4` does. -/
theorem reconcile_marks_one_witness :
    (∃ g, g ∈ pool ProcessClass.storage Fixture.directoryRack ∧
      (reconcile (Fixture.counts 3 1) Fixture.directoryRack).2.filter
          (fun h => h.processClass = ProcessClass.storage) =
        (markForRemoval g Fixture.directoryRack).filter
          (fun h => h.processClass = ProcessClass.storage)) ∧
    removals (reconcile (Fixture.counts 3 1) Fixture.directoryRack).2 =
      [(ProcessClass.storage, 2)] ∧
    removals (reconcile (Fixture.counts 3 1) Fixture.directory).2 =
      [(ProcessClass.storage, 4)] :=
  ⟨(reconcile_marks_one (Fixture.counts 3 1) Fixture.directoryRack ProcessClass.storage
      (by decide)).imp (fun _ h => ⟨h.1, h.2.2.2.2.2⟩), by decide, by decide⟩

/-- The test's reconciled cluster: nothing is flagged. -/
theorem reconciled_cluster_marks_none :
    removals (reconcile (Fixture.counts 4 1) Fixture.directory).2 = [] := by decide

end chooseRemovals

end fdb
